/-
Verification of the webhuawei router connection/caching subsystem.

Shallow embedding of the Python source (services/router.py,
services/router/utils.py, services/router/cache.py,
services/background_service.py) into Lean 4, followed by theorems
settling the behavioural claims about the subsystem.

Modelling conventions:
* Python strings are Lean `String`; line/word processing is done on
  `List Char` with explicit helper functions mirroring `str.strip`,
  `str.split`, `'\n'.join`, substring containment, `str.isdigit`.
* Wall-clock instants (`datetime.now()`) are natural numbers (seconds);
  `timedelta` addition becomes `Nat` addition.
* Delays (floats 1.5, 8.0, 2.0) are rationals; all values arising in the
  retry computation are dyadic, so no floating-point rounding occurs.
* Exceptions are modelled with `Except String`; a function that catches
  all exceptions is total.
-/
import Mathlib

set_option linter.unusedVariables false

/-! ## Character and string utilities (models of Python str operations) -/

/-- Python default whitespace for `str.strip` / `str.split`. -/
def isWS (c : Char) : Bool :=
  c = ' ' || c = '\t' || c = '\n' || c = '\r' || c = '\x0b' || c = '\x0c'

/-- Model of Python `str.strip()` on a character list: drop whitespace
from both ends. -/
def pyStripLc (l : List Char) : List Char :=
  ((l.dropWhile isWS).reverse.dropWhile isWS).reverse

/-- Model of Python `str.strip()`. -/
def pyStrip (s : String) : String :=
  ⟨pyStripLc s.data⟩

/-- Model of Python `s.split('\n')`: always returns at least one (possibly
empty) line; a trailing newline yields a trailing empty line. -/
def splitLines : List Char → List (List Char)
  | [] => [[]]
  | c :: rest =>
    if c = '\n' then [] :: splitLines rest
    else
      match splitLines rest with
      | [] => [[c]]
      | l :: ls => (c :: l) :: ls

/-- Model of Python `'\n'.join(lines)`. -/
def joinLines : List (List Char) → List Char
  | [] => []
  | [l] => l
  | l :: ls => l ++ '\n' :: joinLines ls

/-- Substring containment on character lists: model of Python `t in s`
(with the needle as first argument). -/
def isSubLc (needle : List Char) : List Char → Bool
  | [] => needle.isPrefixOf []
  | c :: rest => needle.isPrefixOf (c :: rest) || isSubLc needle rest

/-- Model of Python `needle in hay` on strings. -/
def containsSub (hay needle : String) : Bool :=
  isSubLc needle.data hay.data

/-- Model of Python `s.split()` (split on whitespace, dropping empty
fields). -/
def splitWS : List Char → List (List Char)
  | [] => []
  | c :: rest =>
    if isWS c then splitWS rest
    else
      match splitWS rest with
      | [] => [[c]]
      | w :: ws =>
        match rest with
        | [] => [[c]]
        | d :: _ => if isWS d then [c] :: w :: ws else (c :: w) :: ws

/-- Model of Python `str.lower()` (ASCII suffices for the router text). -/
def toLowerLc (l : List Char) : List Char :=
  l.map Char.toLower

/-- The decimal digits accepted by Python `int()` (Unicode
`Numeric_Type=Decimal`; the ASCII range is the one the router CLI text
uses). -/
def isDecimalDigitChar (c : Char) : Bool :=
  c.isDigit

/-- Characters Python `str.isdigit()` additionally accepts (Unicode
`Numeric_Type=Digit`) but `int()` rejects with `ValueError`: the
superscript and subscript digits (a representative subset of the Unicode
class — any one of them suffices to reach the conversion error). -/
def isDigitOnlyChar (c : Char) : Bool :=
  c = '¹' || c = '²' || c = '³' || c = '⁰' || c = '⁴' || c = '⁵'
    || c = '⁶' || c = '⁷' || c = '⁸' || c = '⁹'
    || ('₀' ≤ c && c ≤ '₉')

/-- Model of Python `str.isdigit()`: nonempty and every character a
digit — decimal or digit-only. Note it is wider than what `int()`
accepts. -/
def pyIsdigit (l : List Char) : Bool :=
  !l.isEmpty && l.all (fun c => isDecimalDigitChar c || isDigitOnlyChar c)

/-- Model of Python `int(s)` on a digit string. -/
def digitsToNat (l : List Char) : Nat :=
  l.foldl (fun acc c => acc * 10 + (c.toNat - '0'.toNat)) 0

/-- Model of Python `int(s)` on a token that passed `isdigit()`: succeeds
on decimal digits, raises `ValueError` on digit-only characters such as
`'²'`. -/
def pyInt (l : List Char) : Except String Nat :=
  if l.all isDecimalDigitChar then Except.ok (digitsToNat l)
  else Except.error "ValueError: invalid literal for int"


/-! ## services/router.py : `RouterConnection._optimize_commands`
(identical to services/router/utils.py : `optimize_commands`) -/

/-- Source translation of `_optimize_commands` / `optimize_commands`:
strip each command, skip empties, append `' | no-more'` to `display`
commands that contain neither `'| no-more'` nor `'|'`. -/
def optimize_commands : List String → List String
  | [] => []
  | c :: rest =>
    let c := pyStrip c
    if c = "" then optimize_commands rest
    else
      let c :=
        if "display".data.isPrefixOf c.data
            && !(containsSub c "| no-more") && !(containsSub c "|") then
          c ++ " | no-more"
        else c
      c :: optimize_commands rest

/-- Spec-side description of the per-command rewrite in claim C6: a
command gets the paging-disable suffix exactly when it starts with
`display` and lacks any output-paging suppression (no pipe modifier at
all). -/
def addNoMoreSpec (c : String) : String :=
  if "display".data.isPrefixOf c.data && !(containsSub c "|") then
    c ++ " | no-more"
  else c

lemma isPrefixOf_trans {l₁ l₂ l₃ : List Char}
    (h₁ : l₁.isPrefixOf l₂) (h₂ : l₂.isPrefixOf l₃) : l₁.isPrefixOf l₃ := by
  rw [List.isPrefixOf_iff_prefix] at *
  exact h₁.trans h₂

lemma isSubLc_of_prefix {n₁ n₂ hay : List Char}
    (hp : n₁.isPrefixOf n₂) (h : isSubLc n₂ hay) : isSubLc n₁ hay := by
  induction hay with
  | nil =>
    simp only [isSubLc] at *
    exact isPrefixOf_trans hp h
  | cons c rest ih =>
    simp only [isSubLc, Bool.or_eq_true] at *
    rcases h with h | h
    · exact Or.inl (isPrefixOf_trans hp h)
    · exact Or.inr (ih h)

/-- If a command contains `'| no-more'` it contains `'|'`. -/
lemma containsSub_pipe_of_noMore {c : String}
    (h : containsSub c "| no-more") : containsSub c "|" = true := by
  unfold containsSub at *
  exact isSubLc_of_prefix (by decide) h

/-- **C6.** Command normalization: `optimize_commands` strips surrounding
whitespace from each command, drops commands that are empty after
stripping, preserves the relative order of the rest, and appends the
paging-disable suffix `' | no-more'` to exactly those commands that start
with `display` and lack any output-paging suppression (contain no pipe
modifier); every other command passes through unchanged. -/
theorem optimize_commands_correct (cmds : List String) :
    optimize_commands cmds
      = ((cmds.map pyStrip).filter (fun c => c ≠ "")).map addNoMoreSpec := by
  induction cmds with
  | nil => rfl
  | cons c rest ih =>
    simp only [optimize_commands, List.map_cons, List.filter_cons]
    by_cases hc : pyStrip c = ""
    · simp [hc, ih]
    · have hdc : decide (pyStrip c ≠ "") = true := by simp [hc]
      rw [if_neg hc, hdc, if_pos rfl, List.map_cons, ih]
      congr 1
      unfold addNoMoreSpec
      by_cases hpipe : containsSub (pyStrip c) "|"
      · have hp : ¬("display".data.isPrefixOf (pyStrip c).data
            ∧ containsSub (pyStrip c) "|" = false) := by
          simp [hpipe]
        simp [hpipe, if_neg hp]
      · have hnm2 : containsSub (pyStrip c) "| no-more" = false := by
          by_contra hx
          simp only [Bool.not_eq_false] at hx
          exact hpipe (containsSub_pipe_of_noMore hx)
        have hp : containsSub (pyStrip c) "|" = false := by
          simpa using hpipe
        by_cases hd : "display".data.isPrefixOf (pyStrip c).data
        · simp [hd, hnm2, hp]
        · have hd' : ¬("display".data.isPrefixOf (pyStrip c).data) = true := hd
          rw [Bool.not_eq_true] at hd'
          simp [hd', hp]

/-! ## services/router.py : configuration constants -/

namespace RETRY_CONFIG

def max_attempts : Nat := 3

def base_delay : ℚ := 3 / 2

def max_delay : ℚ := 8

def backoff_multiplier : ℚ := 2

end RETRY_CONFIG

namespace TIMEOUTS

def command : Nat := 12

end TIMEOUTS

/-! ## services/router.py : `retry_on_failure`
(identical to services/router/utils.py : `retry_on_failure`)

An attempt of the wrapped function is a value `f k : Except String A`
(`k` = 0-based attempt index); `Except.error` models a raised exception.
The Python parameters `max_attempts`/`delay` default via `x or default`,
so a `None` (and also a zero) argument selects the config value; we model
both parameters with `0` standing for "not given". -/

/-- Python `max_attempts or RETRY_CONFIG['max_attempts']`. -/
def effectiveAttempts (n : Nat) : Nat :=
  if n = 0 then RETRY_CONFIG.max_attempts else n

/-- Python `delay or RETRY_CONFIG['base_delay']`. -/
def effectiveBase (b : ℚ) : ℚ :=
  if b = 0 then RETRY_CONFIG.base_delay else b

/-- Delay slept after the (0-based) attempt `k` fails:
`min(base_delay * backoff_multiplier ** attempt, max_delay)`. -/
def retryDelay (base : ℚ) (k : Nat) : ℚ :=
  min (base * RETRY_CONFIG.backoff_multiplier ^ k) RETRY_CONFIG.max_delay

/-- Observable outcome of a `retry_on_failure`-wrapped call: how many
times the wrapped function was invoked, the sleeps performed between
consecutive attempts (in order), and the final result (`Except.error` =
the re-raised last exception). -/
structure RetryResult (A : Type) where
  calls : Nat
  delays : List ℚ
  result : Except String A
deriving Repr

/-- The retry loop from attempt index `k` with `fuel` attempts remaining
(`fuel ≥ 1` on every real call: Python's `range(attempts)` with
`attempts ≥ 1`). On the last attempt the failure breaks out of the loop
and is re-raised. -/
def retryGo (f : Nat → Except String A) (base : ℚ) : Nat → Nat → RetryResult A
  | _, 0 => ⟨0, [], Except.error "unreachable: zero attempts"⟩
  | k, 1 => ⟨1, [], f k⟩
  | k, fuel + 2 =>
    match f k with
    | Except.ok a => ⟨1, [], Except.ok a⟩
    | Except.error _ =>
      let r := retryGo f base (k + 1) (fuel + 1)
      ⟨r.calls + 1, retryDelay base k :: r.delays, r.result⟩

/-- Source translation of `retry_on_failure(max_attempts, delay)` applied
to a function whose `k`-th invocation yields `f k`. -/
def retry_on_failure (maxAttempts : Nat) (delay : ℚ)
    (f : Nat → Except String A) : RetryResult A :=
  retryGo f (effectiveBase delay) 0 (effectiveAttempts maxAttempts)

lemma retryGo_all_fail {A : Type} (f : Nat → Except String A) (base : ℚ)
    (hf : ∀ k, ∃ m, f k = Except.error m) :
    ∀ fuel k, 1 ≤ fuel →
      (retryGo f base k fuel).calls = fuel
      ∧ (retryGo f base k fuel).delays
          = (List.range (fuel - 1)).map (fun i => retryDelay base (k + i))
      ∧ (retryGo f base k fuel).result = f (k + (fuel - 1)) := by
  intro fuel
  induction fuel with
  | zero => intro k h; omega
  | succ n ih =>
    intro k _
    match n with
    | 0 => simp [retryGo]
    | m + 1 =>
      obtain ⟨msg, hmsg⟩ := hf k
      have hrec := ih (k + 1) (by omega)
      simp only [retryGo, hmsg]
      refine ⟨by rw [hrec.1], ?_, ?_⟩
      · rw [hrec.2.1]
        have : m + 1 + 1 - 1 = (m + 1 - 1) + 1 := by omega
        rw [this, List.range_succ_eq_map, List.map_cons, List.map_map]
        simp only [Nat.add_zero, Function.comp]
        congr 1
        apply List.map_congr_left
        intro i _
        congr 1
        omega
      · rw [hrec.2.2]
        congr 1
        omega

lemma retryDelay_mono {base : ℚ} (hb : 0 ≤ base) {i j : Nat} (hij : i ≤ j) :
    retryDelay base i ≤ retryDelay base j := by
  unfold retryDelay
  apply min_le_min _ le_rfl
  apply mul_le_mul_of_nonneg_left _ hb
  exact pow_le_pow_right₀ (by norm_num [RETRY_CONFIG.backoff_multiplier]) hij

lemma get_map_range {α : Type} (g : Nat → α) (m : Nat) (L : List α)
    (hL : L = (List.range m).map g) (i : Nat) (h : i < L.length) :
    L.get ⟨i, h⟩ = g i := by
  subst hL
  simp

/-- **C3.** Retry/backoff: with `n` configured attempts (an absent or
zero parameter selecting the default 3) and a base delay `b ≥ 0` (absent
selecting the default 1.5), if every invocation raises then the wrapped
function is invoked exactly `N = effectiveAttempts n` times; the delay
slept after the `i`-th failure (0-based; i.e. between attempt `i+1` and
attempt `i+2` in 1-based counting) is
`min(base * backoff_multiplier ^ i, max_delay)`; these delays are
non-decreasing and never exceed `max_delay`; and the final result is the
exception of the last attempt, re-raised. -/
theorem retry_on_failure_correct {A : Type} (n : Nat) (b : ℚ)
    (f : Nat → Except String A)
    (hb : 0 ≤ b) (hf : ∀ k, ∃ m, f k = Except.error m) :
    (retry_on_failure n b f).calls = effectiveAttempts n
    ∧ (retry_on_failure n b f).result = f (effectiveAttempts n - 1)
    ∧ (retry_on_failure n b f).delays.length = effectiveAttempts n - 1
    ∧ (∀ i (h : i < (retry_on_failure n b f).delays.length),
        (retry_on_failure n b f).delays.get ⟨i, h⟩
          = min (effectiveBase b * RETRY_CONFIG.backoff_multiplier ^ i)
              RETRY_CONFIG.max_delay)
    ∧ (∀ i j (hij : i ≤ j) (hj : j < (retry_on_failure n b f).delays.length),
        (retry_on_failure n b f).delays.get ⟨i, by omega⟩
          ≤ (retry_on_failure n b f).delays.get ⟨j, hj⟩)
    ∧ (∀ d ∈ (retry_on_failure n b f).delays, d ≤ RETRY_CONFIG.max_delay) := by
  have hN : 1 ≤ effectiveAttempts n := by
    unfold effectiveAttempts RETRY_CONFIG.max_attempts
    split <;> omega
  have hbase : 0 ≤ effectiveBase b := by
    unfold effectiveBase RETRY_CONFIG.base_delay
    split <;> [norm_num; exact hb]
  obtain ⟨hcalls, hdelays, hres⟩ :=
    retryGo_all_fail f (effectiveBase b) hf (effectiveAttempts n) 0 hN
  have hlen : (retry_on_failure n b f).delays.length = effectiveAttempts n - 1 := by
    unfold retry_on_failure
    rw [hdelays, List.length_map, List.length_range]
  have hget : ∀ i (h : i < (retry_on_failure n b f).delays.length),
      (retry_on_failure n b f).delays.get ⟨i, h⟩ = retryDelay (effectiveBase b) i := by
    intro i h
    have := get_map_range (fun i => retryDelay (effectiveBase b) (0 + i))
      (effectiveAttempts n - 1) (retry_on_failure n b f).delays hdelays i h
    simpa using this
  refine ⟨hcalls, by simpa using hres, hlen, ?_, ?_, ?_⟩
  · intro i h
    rw [hget i h]
    rfl
  · intro i j hij hj
    rw [hget i (by omega), hget j hj]
    exact retryDelay_mono hbase hij
  · intro d hd
    unfold retry_on_failure at hd
    rw [hdelays] at hd
    obtain ⟨i, _, rfl⟩ := List.mem_map.mp hd
    exact min_le_right _ _

/-- Witness for C3: three default attempts with an always-failing
function make exactly 3 calls, sleep 1.5 s then 3 s (non-decreasing,
capped by 8), and re-raise the last exception. -/
theorem retry_on_failure_correct_witness :
    (0 ≤ (0 : ℚ))
    ∧ (retry_on_failure 0 0 (fun k => (Except.error (toString k) : Except String Unit))).calls = 3
    ∧ (retry_on_failure 0 0 (fun k => (Except.error (toString k) : Except String Unit))).delays
        = [3 / 2, 3]
    ∧ (retry_on_failure 0 0 (fun k => (Except.error (toString k) : Except String Unit))).result
        = Except.error "2" := by
  have h := retry_on_failure_correct 0 0
      (fun k => (Except.error (toString k) : Except String Unit))
      le_rfl (fun k => ⟨toString k, rfl⟩)
  refine ⟨le_rfl, h.1, ?_, ?_⟩
  · show (retryGo _ _ 0 3).delays = _
    simp only [retryGo, retryDelay]
    norm_num [effectiveBase, RETRY_CONFIG.base_delay, RETRY_CONFIG.max_delay,
      RETRY_CONFIG.backoff_multiplier, min_def]
  · exact h.2.1

/-! ## services/router.py : `RouterConnection._clean_ssh_output`
(identical to services/router/utils.py : `_clean_ssh_output`) -/

/-- Prompt detection used when filtering output lines:
`line.endswith('>') or line.endswith('#') or line.endswith(']') or
line.endswith('<')`. -/
def endsWithPrompt (l : List Char) : Bool :=
  match l.getLast? with
  | some c => c = '>' || c = '#' || c = ']' || c = '<'
  | none => false

/-- The line-filtering loop of `_clean_ssh_output`: strip each line,
drop the first line containing the (stripped) command, drop prompt lines
and empty lines, keep the rest in order. -/
def cleanLoop (cmd : List Char) : Bool → List (List Char) → List (List Char)
  | _, [] => []
  | skip, l :: rest =>
    let l := pyStripLc l
    if skip && isSubLc cmd l then cleanLoop cmd false rest
    else if endsWithPrompt l || l.isEmpty then cleanLoop cmd skip rest
    else l :: cleanLoop cmd skip rest

/-- Source translation of `_clean_ssh_output(output, command)`. -/
def clean_ssh_output (output command : String) : String :=
  ⟨pyStripLc (joinLines (cleanLoop (pyStripLc command.data) true
      (splitLines output.data)))⟩

lemma splitLines_ne_nil (l : List Char) : splitLines l ≠ [] := by
  cases l with
  | nil => simp [splitLines]
  | cons c rest =>
    simp only [splitLines]
    split
    · simp
    · match h : splitLines rest with
      | [] => simp
      | m :: ms => simp

lemma joinLines_cons_of_ne_nil (l : List Char) {ls : List (List Char)}
    (h : ls ≠ []) : joinLines (l :: ls) = l ++ '\n' :: joinLines ls := by
  match ls with
  | [] => exact absurd rfl h
  | m :: ms => rfl

lemma joinLines_splitLines (l : List Char) : joinLines (splitLines l) = l := by
  induction l with
  | nil => rfl
  | cons c rest ih =>
    simp only [splitLines]
    by_cases hc : c = '\n'
    · rw [if_pos hc, joinLines_cons_of_ne_nil _ (splitLines_ne_nil rest), ih, hc]
      rfl
    · rw [if_neg hc]
      match h : splitLines rest with
      | [] => exact absurd h (splitLines_ne_nil rest)
      | [m] =>
        rw [h] at ih
        simp only [joinLines] at ih ⊢
        rw [ih]
      | m :: m' :: ms =>
        rw [h] at ih
        rw [joinLines_cons_of_ne_nil m (by simp)] at ih
        rw [joinLines_cons_of_ne_nil (c :: m) (by simp)]
        simp only [List.cons_append, List.append_assoc] at ih ⊢
        rw [ih]

lemma cleanLoop_keep (cmd : List Char) (skip : Bool) (ls : List (List Char))
    (h : ∀ l ∈ ls, pyStripLc l = l ∧ l ≠ [] ∧ endsWithPrompt l = false
        ∧ isSubLc cmd l = false) :
    cleanLoop cmd skip ls = ls := by
  induction ls generalizing skip with
  | nil => rfl
  | cons l rest ih =>
    obtain ⟨hstrip, hne, hprompt, hcmd⟩ := h l (List.mem_cons_self l rest)
    have hrest := fun m hm => h m (List.mem_cons_of_mem l hm)
    have hempty : l.isEmpty = false := by
      cases l
      · exact absurd rfl hne
      · rfl
    simp only [cleanLoop, hstrip, hcmd, Bool.and_false, hprompt, hempty,
      Bool.or_false]
    simp only [Bool.false_eq_true, if_false]
    rw [ih skip hrest]

lemma dropWhile_isWS_cons_self {c : Char} {t : List Char}
    (h : List.dropWhile isWS (c :: t) = c :: t) : isWS c = false := by
  by_contra hx
  simp only [Bool.not_eq_false] at hx
  rw [List.dropWhile_cons, if_pos hx] at h
  have := (List.dropWhile_sublist (l := t) isWS).length_le
  rw [h] at this
  simp at this

lemma dropWhile_isWS_append {X Y : List Char}
    (hX : List.dropWhile isWS X = X) (hne : X ≠ []) :
    List.dropWhile isWS (X ++ Y) = X ++ Y := by
  match X with
  | [] => exact absurd rfl hne
  | c :: t =>
    have hc := dropWhile_isWS_cons_self hX
    simp [List.dropWhile_cons, hc]

lemma pyStripLc_eq_self_parts {l : List Char} (h : pyStripLc l = l) :
    List.dropWhile isWS l = l ∧ List.dropWhile isWS l.reverse = l.reverse := by
  unfold pyStripLc at h
  have h1 : (List.dropWhile isWS l).length ≤ l.length :=
    (List.dropWhile_sublist isWS).length_le
  have h2 : (List.dropWhile isWS (List.dropWhile isWS l).reverse).length
      ≤ (List.dropWhile isWS l).length := by
    have := (List.dropWhile_sublist (l := (List.dropWhile isWS l).reverse) isWS).length_le
    simpa using this
  have hlen : l.length
      = (List.dropWhile isWS (List.dropWhile isWS l).reverse).length := by
    conv_lhs => rw [← h]
    simp
  have hAlen : (List.dropWhile isWS l).length = l.length := by omega
  have hA : List.dropWhile isWS l = l :=
    (List.dropWhile_suffix isWS).eq_of_length hAlen
  refine ⟨hA, ?_⟩
  rw [hA] at h
  have : (List.dropWhile isWS l.reverse).reverse = l := h
  have hB : List.dropWhile isWS l.reverse = l.reverse := by
    have := congrArg List.reverse this
    simpa using this
  exact hB

lemma joinLines_good_strip (ls : List (List Char))
    (hne : ls ≠ [])
    (h : ∀ l ∈ ls, pyStripLc l = l ∧ l ≠ []) :
    List.dropWhile isWS (joinLines ls) = joinLines ls
    ∧ List.dropWhile isWS (joinLines ls).reverse = (joinLines ls).reverse := by
  induction ls with
  | nil => exact absurd rfl hne
  | cons l rest ih =>
    obtain ⟨hstrip, hlne⟩ := h l (List.mem_cons_self l rest)
    obtain ⟨hfront, hback⟩ := pyStripLc_eq_self_parts hstrip
    match rest with
    | [] =>
      exact ⟨hfront, hback⟩
    | m :: ms =>
      have hrec := ih (by simp) (fun x hx => h x (List.mem_cons_of_mem l hx))
      rw [joinLines_cons_of_ne_nil l (by simp)]
      constructor
      · exact dropWhile_isWS_append hfront hlne
      · have hJne : joinLines (m :: ms) ≠ [] := by
          obtain ⟨hm, hmne⟩ := h m (by simp)
          match ms with
          | [] => simpa [joinLines] using hmne
          | m' :: ms' =>
            rw [joinLines_cons_of_ne_nil m (by simp)]
            simp
        have hrev : (l ++ '\n' :: joinLines (m :: ms)).reverse
            = (joinLines (m :: ms)).reverse ++ ('\n' :: l.reverse) := by
          simp
        rw [hrev]
        apply dropWhile_isWS_append hrec.2
        intro hx
        rw [List.reverse_eq_nil_iff] at hx
        exact hJne hx

lemma pyStripLc_of_parts {l : List Char}
    (h1 : List.dropWhile isWS l = l)
    (h2 : List.dropWhile isWS l.reverse = l.reverse) :
    pyStripLc l = l := by
  unfold pyStripLc
  rw [h1, h2, List.reverse_reverse]

/-- **C9 counterexample.** The claim "cleaning already-clean output (no
echoed command line and no trailing prompt line) returns the input
unchanged" is false: `"alpha\n\nbeta"` contains no occurrence of the
command `"display version"` and its trailing line `"beta"` is not a
prompt, yet `_clean_ssh_output` removes the interior blank line and
returns `"alpha\nbeta"`.  Cleaning is also not idempotent: an output
with a second line containing the command is reduced further by a second
clean. -/
theorem clean_ssh_output_counterexample :
    (∀ l ∈ splitLines ("alpha\n\nbeta").data,
        isSubLc (pyStripLc ("display version").data) l = false)
    ∧ (splitLines ("alpha\n\nbeta").data).getLast? = some ("beta").data
    ∧ endsWithPrompt ("beta").data = false
    ∧ clean_ssh_output "alpha\n\nbeta" "display version" = "alpha\nbeta"
    ∧ clean_ssh_output "alpha\n\nbeta" "display version" ≠ "alpha\n\nbeta"
    ∧ clean_ssh_output
        (clean_ssh_output "display version\nxx display version yy\nresult"
          "display version") "display version"
      ≠ clean_ssh_output "display version\nxx display version yy\nresult"
          "display version" := by
  refine ⟨by decide, by decide, by decide, by decide, by decide, by decide⟩

/-- **C9 (amended).** Output cleaning is the identity on genuinely clean
output: if every line of `o` is nonempty, equal to its own strip, does
not end in one of the prompt characters `>`, `#`, `]`, `<`, and does not
contain the (stripped) command as a substring, then
`_clean_ssh_output(o, c) = o`.  (The original claim's weaker premise —
merely "no echoed command line and no trailing prompt line" — does not
suffice; see the counterexample.) -/
theorem clean_ssh_output_id (o c : String)
    (h : ∀ l ∈ splitLines o.data,
        pyStripLc l = l ∧ l ≠ [] ∧ endsWithPrompt l = false
        ∧ isSubLc (pyStripLc c.data) l = false) :
    clean_ssh_output o c = o := by
  unfold clean_ssh_output
  rw [cleanLoop_keep _ _ _ h, joinLines_splitLines]
  have hgood : ∀ l ∈ splitLines o.data, pyStripLc l = l ∧ l ≠ [] :=
    fun l hl => ⟨(h l hl).1, (h l hl).2.1⟩
  have hj := joinLines_good_strip (splitLines o.data) (splitLines_ne_nil _) hgood
  rw [joinLines_splitLines] at hj
  rw [pyStripLc_of_parts hj.1 hj.2]

/-- Witness for the amended C9: a two-line clean output is returned
unchanged. -/
theorem clean_ssh_output_id_witness :
    clean_ssh_output "abc\ndef" "display version" = "abc\ndef" :=
  clean_ssh_output_id "abc\ndef" "display version" (by decide)

/-! ## services/router.py : parsers
`parse_interface_output_optimized` and `parse_pppoe_stats_optimized`.
The interface parser is pure and total (its indexing is guarded by
length checks). The PPPoE parser guards `int(part)` only by
`part.isdigit()`, and Python `isdigit()` accepts digit-only characters
(`'²'` etc.) on which `int()` raises `ValueError` — so its embedding is
fallible (`Except`), the error being that uncaught exception.
Timestamps (`datetime.now().isoformat()`) are passed in as a
`now : Nat` parameter. -/

/-- One parsed interface record (`interface = { ... }` in the source). -/
structure InterfaceRec where
  name : String
  status : String
  protocol : String
  ip_address : String
  description : String
  utilization_in : Nat
  utilization_out : Nat
  last_update : Nat
deriving Repr, DecidableEq

/-- Model of `' '.join(parts)`. -/
def joinWords : List (List Char) → List Char
  | [] => []
  | [w] => w
  | w :: ws => w ++ ' ' :: joinWords ws

/-- The per-line loop of `parse_interface_output_optimized`. -/
def parseInterfaceLines (now : Nat) : List (List Char) → List InterfaceRec
  | [] => []
  | l :: rest =>
    let l := pyStripLc l
    if l.isEmpty || isSubLc ("Interface").data l || isSubLc ("------").data l then
      parseInterfaceLines now rest
    else
      match splitWS l with
      | p0 :: p1 :: p2 :: ps =>
        { name := ⟨p0⟩
          status := ⟨p1⟩
          protocol := ⟨p2⟩
          ip_address := match ps with | p3 :: _ => ⟨p3⟩ | [] => ""
          description := match ps with | _ :: p4s => ⟨joinWords p4s⟩ | [] => ""
          utilization_in := 0
          utilization_out := 0
          last_update := now } :: parseInterfaceLines now rest
      | _ => parseInterfaceLines now rest

/-- Source translation of `parse_interface_output_optimized(output)`:
empty or `"Error:"`-tagged input yields the empty list; otherwise each
stripped, non-header line with at least 3 whitespace-separated fields
becomes an `InterfaceRec`. -/
def parse_interface_output_optimized (output : String) (now : Nat) :
    List InterfaceRec :=
  if output = "" || containsSub output "Error:" then []
  else parseInterfaceLines now (splitLines output.data)

/-- PPPoE statistics record (`stats = { ... }` in the source). -/
structure PppoeStats where
  total : Nat
  active : Nat
  peak : Nat
  authenticated : Nat
  last_update : Nat
deriving Repr, DecidableEq

/-- The zeroed statistics record the parser starts from (and returns
unchanged when nothing parses). -/
def zeroPppoeStats (now : Nat) : PppoeStats :=
  { total := 0, active := 0, peak := 0, authenticated := 0, last_update := now }

/-- First whitespace-separated token that `isdigit()`, converted with
`int()` (`for part in parts: if part.isdigit(): ... = int(part); break`);
the conversion raises on a digit-only token. -/
def firstDigitToken (parts : List (List Char)) : Except String (Option Nat) :=
  match parts.find? pyIsdigit with
  | some w => (pyInt w).map some
  | none => Except.ok none

/-- Per-line update of the PPPoE statistics (`line.strip().lower()`,
then the `total ... user` / `active ... session` branches); a
`ValueError` from `int()` propagates. -/
def pppoeLine (st : PppoeStats) (l : List Char) : Except String PppoeStats :=
  let l := toLowerLc (pyStripLc l)
  if isSubLc ("total").data l && isSubLc ("user").data l then
    match firstDigitToken (splitWS l) with
    | Except.ok (some n) => Except.ok { st with total := n }
    | Except.ok none => Except.ok st
    | Except.error m => Except.error m
  else if isSubLc ("active").data l && isSubLc ("session").data l then
    match firstDigitToken (splitWS l) with
    | Except.ok (some n) => Except.ok { st with active := n }
    | Except.ok none => Except.ok st
    | Except.error m => Except.error m
  else Except.ok st

/-- Source translation of `parse_pppoe_stats_optimized(results)`: skip
empty or `"Error:"`-tagged results, otherwise scan every line; an
uncaught `ValueError` from `int()` aborts the parse (`Except.error`). -/
def parse_pppoe_stats_optimized (results : List String) (now : Nat) :
    Except String PppoeStats :=
  results.foldlM
    (fun st r =>
      if r = "" || containsSub r "Error:" then Except.ok st
      else (splitLines r.data).foldlM pppoeLine st)
    (zeroPppoeStats now)

/-- **C8.** The claim is the source's own documented contract ("pure and
total: ... never raise an exception"), and the graceful-degradation half
holds (empty or `"Error:"`-tagged input yields the empty interface list,
respectively the zeroed statistics record, and ordinary decimal tokens
parse fine) — but the totality half is broken by a latent bug: in
`parse_pppoe_stats_optimized` the guard `part.isdigit()` accepts
digit-only Unicode characters such as `'²'` that `int(part)` then
rejects, so the input `["total user ²"]` raises an uncaught
`ValueError` instead of returning a statistics record. -/
theorem pppoe_parser_crash_on_digit_only_token :
    parse_pppoe_stats_optimized ["total user ²"] 0
      = Except.error "ValueError: invalid literal for int"
    ∧ parse_pppoe_stats_optimized ["total user 42"] 3
      = Except.ok
          { total := 42, active := 0, peak := 0, authenticated := 0,
            last_update := 3 }
    ∧ parse_pppoe_stats_optimized ["", "Error: boom"] 7
      = Except.ok (zeroPppoeStats 7)
    ∧ parse_interface_output_optimized "Error: connection timed out" 5 = []
    ∧ parse_interface_output_optimized "" 5 = [] := by
  refine ⟨rfl, rfl, rfl, rfl, rfl⟩

/-! ## services/router.py : connection pool
(`ConnectionInfo`, `ConnectionPool.get_connection`,
`ConnectionPool._cleanup_expired_connections`)

The underlying paramiko/telnetlib handle is abstracted to an identifier;
the pool's FIFO `Queue` is a list whose head is popped first. The cheap
health probe (`_test_connection_health`) depends on live transport state
and is passed in as a boolean-valued oracle. -/

namespace CONNECTION_POOL_CONFIG

def max_connections : Nat := 5

def idle_timeout : Nat := 300

def max_age : Nat := 1800

end CONNECTION_POOL_CONFIG

/-- Model of `ConnectionInfo`: the wrapped transport handle is reduced to
an id. -/
structure ConnectionInfo where
  conn_id : Nat
  protocol : String
  created_at : Nat
  last_used : Nat
  is_healthy : Bool
  usage_count : Nat
deriving Repr, DecidableEq

namespace ConnectionInfo

/-- Source translation of `ConnectionInfo.is_expired`: idle beyond
`idle_timeout` or age beyond `max_age`. (`Nat` truncated subtraction and
Python real subtraction agree on the `> threshold` tests because the
thresholds are positive.) -/
def is_expired (now : Nat) (c : ConnectionInfo) : Bool :=
  decide (now - c.last_used > CONNECTION_POOL_CONFIG.idle_timeout)
    || decide (now - c.created_at > CONNECTION_POOL_CONFIG.max_age)

/-- Source translation of `ConnectionInfo.mark_used`. -/
def mark_used (now : Nat) (c : ConnectionInfo) : ConnectionInfo :=
  { c with last_used := now, usage_count := c.usage_count + 1 }

end ConnectionInfo

/-- Acquisition path of `ConnectionPool.get_connection` up to the
`yield`: pop one pooled connection; if it is expired or fails the health
probe, close it and create a fresh one; mark the yielded connection used.
Returns (yielded connection, remaining pool, closed connections). -/
def get_connection (pool : List ConnectionInfo) (now : Nat)
    (healthProbe : ConnectionInfo → Bool) (fresh : ConnectionInfo) :
    ConnectionInfo × List ConnectionInfo × List ConnectionInfo :=
  match pool with
  | [] => (fresh.mark_used now, [], [])
  | c :: rest =>
    if c.is_expired now || !healthProbe c then
      (fresh.mark_used now, rest, [c])
    else
      (c.mark_used now, rest, [])

/-- Source translation of the pop-all/re-put loop of
`ConnectionPool._cleanup_expired_connections`: returns (connections put
back, connections closed). -/
def cleanup_expired_connections (now : Nat) :
    List ConnectionInfo → List ConnectionInfo × List ConnectionInfo
  | [] => ([], [])
  | c :: rest =>
    let (active, closed) := cleanup_expired_connections now rest
    if !(c.is_expired now) && c.is_healthy then (c :: active, closed)
    else (active, c :: closed)

/-- **C4.** Pool expiry: the connection yielded by `get_connection` is
never expired (a fresh connection carries `created_at = last_used = now`);
the acquisition path closes exactly the popped connection when it is
expired or unhealthy; and the periodic cleanup sweep keeps exactly the
non-expired healthy connections (in order) while closing every other one,
so no expired session is ever handed out again. -/
theorem connection_pool_expiry (pool : List ConnectionInfo) (now : Nat)
    (healthProbe : ConnectionInfo → Bool) (fresh : ConnectionInfo)
    (hc : fresh.created_at = now) (hl : fresh.last_used = now) :
    ((get_connection pool now healthProbe fresh).1.is_expired now = false)
    ∧ (∀ c ∈ (get_connection pool now healthProbe fresh).2.2,
        c.is_expired now = true ∨ healthProbe c = false)
    ∧ (cleanup_expired_connections now pool).1
        = pool.filter (fun c => !(c.is_expired now) && c.is_healthy)
    ∧ (cleanup_expired_connections now pool).2
        = pool.filter (fun c => c.is_expired now || !c.is_healthy)
    ∧ (∀ c ∈ (cleanup_expired_connections now pool).1,
        c.is_expired now = false) := by
  have hfresh : (fresh.mark_used now).is_expired now = false := by
    simp [ConnectionInfo.is_expired, ConnectionInfo.mark_used, hc,
      CONNECTION_POOL_CONFIG.idle_timeout, CONNECTION_POOL_CONFIG.max_age]
  have hyield : (get_connection pool now healthProbe fresh).1.is_expired now = false := by
    match pool with
    | [] => exact hfresh
    | c :: rest =>
      show ConnectionInfo.is_expired now
        (if (c.is_expired now || !healthProbe c) = true
          then (fresh.mark_used now, rest, [c])
          else (c.mark_used now, rest, [])).1 = false
      by_cases hbad : (c.is_expired now || !healthProbe c) = true
      · rw [if_pos hbad]
        exact hfresh
      · rw [if_neg hbad]
        simp only [Bool.or_eq_true, not_or, Bool.not_eq_true] at hbad
        have hnotexp : c.is_expired now = false := hbad.1
        simp only [ConnectionInfo.is_expired, ConnectionInfo.mark_used,
          Bool.or_eq_false_iff, decide_eq_false_iff_not, not_lt] at hnotexp ⊢
        exact ⟨by omega, hnotexp.2⟩
  have hclosed : ∀ c ∈ (get_connection pool now healthProbe fresh).2.2,
      c.is_expired now = true ∨ healthProbe c = false := by
    match pool with
    | [] => intro c hmem; cases hmem
    | c :: rest =>
      show ∀ d ∈ (if (c.is_expired now || !healthProbe c) = true
          then (fresh.mark_used now, rest, [c])
          else (c.mark_used now, rest, ([] : List ConnectionInfo))).2.2,
        d.is_expired now = true ∨ healthProbe d = false
      by_cases hbad : (c.is_expired now || !healthProbe c) = true
      · rw [if_pos hbad]
        intro d hd
        have hdc : d = c := by simpa using hd
        subst hdc
        simpa only [Bool.or_eq_true, Bool.not_eq_true'] using hbad
      · rw [if_neg hbad]
        intro d hd
        cases hd
  have hcleanup : ∀ (l : List ConnectionInfo),
      (cleanup_expired_connections now l).1
          = l.filter (fun c => !(c.is_expired now) && c.is_healthy)
      ∧ (cleanup_expired_connections now l).2
          = l.filter (fun c => c.is_expired now || !c.is_healthy) := by
    intro l
    induction l with
    | nil => exact ⟨rfl, rfl⟩
    | cons c rest ih =>
      simp only [cleanup_expired_connections, List.filter_cons]
      by_cases hgood : (!(c.is_expired now) && c.is_healthy) = true
      · have hbad : (c.is_expired now || !c.is_healthy) = false := by
          simp only [Bool.and_eq_true, Bool.not_eq_true'] at hgood
          simp [hgood.1, hgood.2]
        simp only [hgood, hbad, if_pos rfl, ih.1, ih.2]
        simp
      · have hgood' : (!(c.is_expired now) && c.is_healthy) = false := by
          simpa using hgood
        have hbad : (c.is_expired now || !c.is_healthy) = true := by
          by_cases h1 : c.is_expired now = true
          · simp [h1]
          · have h1f : c.is_expired now = false := by simpa using h1
            have h2 : c.is_healthy = false := by
              by_contra hx
              simp only [Bool.not_eq_false] at hx
              simp [h1f, hx] at hgood'
            simp [h2]
        simp only [hgood', hbad, ih.1, ih.2]
        simp
  refine ⟨hyield, hclosed, (hcleanup pool).1, (hcleanup pool).2, ?_⟩
  intro c hcmem
  rw [(hcleanup pool).1] at hcmem
  have := List.of_mem_filter hcmem
  simp only [Bool.and_eq_true, Bool.not_eq_true'] at this
  exact this.1

/-- Witness for C4: a pool holding one long-expired connection at
`now = 10000`; the expired connection is closed, never yielded, and the
sweep closes it as well. -/
theorem connection_pool_expiry_witness :
    ((⟨7, "ssh", 10000, 10000, true, 0⟩ : ConnectionInfo).created_at = 10000)
    ∧ ((get_connection
          [⟨1, "ssh", 0, 0, true, 3⟩] 10000 (fun _ => true)
          ⟨7, "ssh", 10000, 10000, true, 0⟩).1.is_expired 10000 = false)
    ∧ ((get_connection
          [⟨1, "ssh", 0, 0, true, 3⟩] 10000 (fun _ => true)
          ⟨7, "ssh", 10000, 10000, true, 0⟩).2.2
        = [⟨1, "ssh", 0, 0, true, 3⟩])
    ∧ ((cleanup_expired_connections 10000 [⟨1, "ssh", 0, 0, true, 3⟩]).2
        = [⟨1, "ssh", 0, 0, true, 3⟩]) := by
  have h := connection_pool_expiry [⟨1, "ssh", 0, 0, true, 3⟩] 10000
    (fun _ => true) ⟨7, "ssh", 10000, 10000, true, 0⟩ rfl rfl
  refine ⟨rfl, h.1, by decide, by decide⟩

/-! ## services/router.py : `SmartCache`
(identical to services/router/cache.py : `SmartCache`)

Two tiers: Redis (remote) and `memory_cache` (local, a Python dict
modelled as an association list with unique keys, insertion order
preserved). Redis availability is the `redis_client is not None` flag;
transient Redis errors at `get`/`set` time (caught and logged by the
source) are modelled by a `remoteOk : Bool` oracle per operation.
`setex` stores the entry with Redis-side expiry `now + ttl`, which
coincides with the JSON `expires_at` metadata; `redisFetch` applies that
Redis-side eviction. Values are kept generic in `α`. -/

/-- The JSON payload stored per key: `{'data', 'expires_at', 'created_at'}`. -/
structure CacheEntry (α : Type) where
  data : α
  expires_at : Nat
  created_at : Nat
deriving Repr

/-- `_is_valid_cache_entry`: `datetime.now() < expires_at`. -/
def isValidEntry (now : Nat) (e : CacheEntry α) : Bool :=
  decide (now < e.expires_at)

/-- State of a `SmartCache` instance (both tiers plus `cache_stats`). -/
structure CacheState (α : Type) where
  redisAvail : Bool
  redis : List (String × CacheEntry α)
  memory : List (String × CacheEntry α)
  hits : Nat
  misses : Nat
  redis_hits : Nat
  memory_hits : Nat

/-- First-match association-list lookup (Python dict access). -/
def lookupMem : List (String × CacheEntry α) → String → Option (CacheEntry α)
  | [], _ => none
  | (k', e) :: rest, k => if k' = k then some e else lookupMem rest k

/-- Python dict assignment `d[k] = e`: replace in place, else append. -/
def insertDict : List (String × CacheEntry α) → String → CacheEntry α →
    List (String × CacheEntry α)
  | [], k, e => [(k, e)]
  | (k', e') :: rest, k, e =>
    if k' = k then (k, e) :: rest else (k', e') :: insertDict rest k e

/-- Python `del d[k]` (the key is present at most once). -/
def eraseKey : List (String × CacheEntry α) → String →
    List (String × CacheEntry α)
  | [], _ => []
  | (k', e') :: rest, k =>
    if k' = k then rest else (k', e') :: eraseKey rest k

/-- Stable insertion into a list sorted ascending by `created_at`
(model of Python `sorted(items, key=created_at)` — ties keep earlier
items first). -/
def insertByCreated (p : String × CacheEntry α) :
    List (String × CacheEntry α) → List (String × CacheEntry α)
  | [] => [p]
  | q :: rest =>
    if q.2.created_at ≤ p.2.created_at then q :: insertByCreated p rest
    else p :: q :: rest

/-- Ascending stable sort by `created_at`. -/
def sortByCreated : List (String × CacheEntry α) → List (String × CacheEntry α)
  | [] => []
  | p :: rest => insertByCreated p (sortByCreated rest)

/-- Source translation of `SmartCache._cleanup_memory_cache`: drop the
expired entries; if more than 100 remain, keep only the 50 newest by
`created_at` (Python `dict(sorted_items[-50:])`). -/
def cleanup_memory_cache (now : Nat) (m : List (String × CacheEntry α)) :
    List (String × CacheEntry α) :=
  let pruned := m.filter (fun p => isValidEntry now p.2)
  if pruned.length > 100 then (sortByCreated pruned).drop (pruned.length - 50)
  else pruned

namespace SmartCache

/-- The Redis read (`redis_client.get` + JSON decode): returns the entry
only while Redis' own `setex` TTL has not elapsed, and only when Redis is
available and not erroring (`remoteOk`). -/
def redisFetch (st : CacheState α) (k : String) (now : Nat)
    (remoteOk : Bool) : Option (CacheEntry α) :=
  if st.redisAvail && remoteOk then
    match lookupMem st.redis k with
    | some e => if isValidEntry now e then some e else none
    | none => none
  else none

/-- The memory-tier half of `SmartCache.get`: hit on a valid entry,
delete an expired entry and miss, miss on absence. -/
def memoryGet (st : CacheState α) (k : String) (now : Nat) :
    Option α × CacheState α :=
  match lookupMem st.memory k with
  | some e =>
    if isValidEntry now e then
      (some e.data,
        { st with hits := st.hits + 1, memory_hits := st.memory_hits + 1 })
    else
      (none, { st with memory := eraseKey st.memory k, misses := st.misses + 1 })
  | none => (none, { st with misses := st.misses + 1 })

/-- Source translation of `SmartCache.get`: try Redis first (validating
the entry metadata), fall through to the memory tier, else miss. -/
def get (st : CacheState α) (k : String) (now : Nat) (remoteOk : Bool) :
    Option α × CacheState α :=
  match redisFetch st k now remoteOk with
  | some e =>
    if isValidEntry now e then
      (some e.data,
        { st with hits := st.hits + 1, redis_hits := st.redis_hits + 1 })
    else memoryGet st k now
  | none => memoryGet st k now

/-- Source translation of `SmartCache.set`: build the entry with
`expires_at = now + ttl`, write it to Redis (best-effort: skipped when
unavailable or erroring) and unconditionally to the memory tier, then run
the memory cleanup. -/
def set (st : CacheState α) (k : String) (v : α) (ttl now : Nat)
    (remoteOk : Bool) : CacheState α :=
  let e : CacheEntry α := ⟨v, now + ttl, now⟩
  { st with
    redis := if st.redisAvail && remoteOk then insertDict st.redis k e
             else st.redis
    memory := cleanup_memory_cache now (insertDict st.memory k e) }

end SmartCache

/-! ### Association-list lemmas -/

lemma lookupMem_insertDict_self (m : List (String × CacheEntry α))
    (k : String) (e : CacheEntry α) :
    lookupMem (insertDict m k e) k = some e := by
  induction m with
  | nil => simp [insertDict, lookupMem]
  | cons p rest ih =>
    obtain ⟨k', e'⟩ := p
    by_cases hk : k' = k
    · simp [insertDict, hk, lookupMem]
    · simp [insertDict, hk, lookupMem, ih]

lemma lookupMem_insertDict_ne (m : List (String × CacheEntry α))
    {k k' : String} (e : CacheEntry α) (h : k ≠ k') :
    lookupMem (insertDict m k' e) k = lookupMem m k := by
  have h' : ¬k' = k := Ne.symm h
  induction m with
  | nil => simp [insertDict, lookupMem, h']
  | cons p rest ih =>
    obtain ⟨k'', e''⟩ := p
    by_cases hk : k'' = k'
    · have hk2 : ¬k'' = k := by rw [hk]; exact h'
      simp [insertDict, hk, lookupMem, h', hk2]
    · simp only [insertDict, if_neg hk, lookupMem]
      by_cases hk2 : k'' = k
      · simp [hk2]
      · simp [hk2, ih]

lemma lookupMem_eq_none_of_not_mem {m : List (String × CacheEntry α)}
    {k : String} (h : k ∉ m.map Prod.fst) : lookupMem m k = none := by
  induction m with
  | nil => rfl
  | cons p rest ih =>
    obtain ⟨k', e'⟩ := p
    simp only [List.map_cons, List.mem_cons] at h
    push_neg at h
    have hne : k' ≠ k := fun hx => h.1 hx.symm
    simp [lookupMem, hne, ih h.2]

lemma mem_keys_insertDict {m : List (String × CacheEntry α)}
    {k x : String} {e : CacheEntry α}
    (h : x ∈ (insertDict m k e).map Prod.fst) :
    x = k ∨ x ∈ m.map Prod.fst := by
  induction m with
  | nil =>
    simp only [insertDict, List.map_cons, List.map_nil, List.mem_singleton] at h
    exact Or.inl h
  | cons p rest ih =>
    obtain ⟨k', e'⟩ := p
    by_cases hk : k' = k
    · simp only [insertDict, if_pos hk, List.map_cons, List.mem_cons] at h
      rcases h with h | h
      · exact Or.inl h
      · exact Or.inr (by simp [h])
    · simp only [insertDict, if_neg hk, List.map_cons, List.mem_cons] at h ⊢
      rcases h with h | h
      · exact Or.inr (Or.inl h)
      · rcases ih h with h2 | h2
        · exact Or.inl h2
        · exact Or.inr (Or.inr h2)

lemma nodup_keys_insertDict {m : List (String × CacheEntry α)}
    {k : String} {e : CacheEntry α}
    (h : (m.map Prod.fst).Nodup) :
    ((insertDict m k e).map Prod.fst).Nodup := by
  induction m with
  | nil => simp [insertDict]
  | cons p rest ih =>
    obtain ⟨k', e'⟩ := p
    simp only [List.map_cons, List.nodup_cons] at h
    by_cases hk : k' = k
    · subst hk
      have hins : insertDict ((k', e') :: rest) k' e = (k', e) :: rest := by
        simp [insertDict]
      rw [hins, List.map_cons, List.nodup_cons]
      exact ⟨h.1, h.2⟩
    · simp only [insertDict, if_neg hk, List.map_cons, List.nodup_cons]
      refine ⟨?_, ih h.2⟩
      intro hx
      rcases mem_keys_insertDict hx with h2 | h2
      · exact hk h2
      · exact h.1 h2

lemma nodup_keys_filter {m : List (String × CacheEntry α)}
    (q : String × CacheEntry α → Bool)
    (h : (m.map Prod.fst).Nodup) :
    ((m.filter q).map Prod.fst).Nodup :=
  ((m.filter_sublist).map Prod.fst).nodup h

lemma lookupMem_filter {m : List (String × CacheEntry α)}
    (q : CacheEntry α → Bool) {k : String}
    (h : (m.map Prod.fst).Nodup) :
    lookupMem (m.filter (fun p => q p.2)) k
      = (lookupMem m k).bind (fun e => if q e then some e else none) := by
  induction m with
  | nil => rfl
  | cons p rest ih =>
    obtain ⟨k', e'⟩ := p
    simp only [List.map_cons, List.nodup_cons] at h
    have ihr := ih h.2
    by_cases hk : k' = k
    · subst hk
      by_cases hq : q e' = true
      · have hfc : List.filter (fun p => q p.2) ((k', e') :: rest)
            = (k', e') :: List.filter (fun p => q p.2) rest := by
          simp [List.filter_cons, hq]
        rw [hfc]
        simp [lookupMem, hq]
      · have hq' : q e' = false := by simpa using hq
        have hfc : List.filter (fun p => q p.2) ((k', e') :: rest)
            = List.filter (fun p => q p.2) rest := by
          simp [List.filter_cons, hq']
        have hnot : k' ∉ (List.filter (fun p => q p.2) rest).map Prod.fst := by
          intro hx
          exact h.1 ((List.filter_sublist _).map Prod.fst |>.subset hx)
        rw [hfc, lookupMem_eq_none_of_not_mem hnot]
        simp [lookupMem, hq']
    · by_cases hq : q e' = true
      · have hfc : List.filter (fun p => q p.2) ((k', e') :: rest)
            = (k', e') :: List.filter (fun p => q p.2) rest := by
          simp [List.filter_cons, hq]
        rw [hfc]
        simp only [lookupMem, if_neg hk]
        exact ihr
      · have hq' : q e' = false := by simpa using hq
        have hfc : List.filter (fun p => q p.2) ((k', e') :: rest)
            = List.filter (fun p => q p.2) rest := by
          simp [List.filter_cons, hq']
        rw [hfc, ihr]
        simp only [lookupMem, if_neg hk]

lemma length_filter_insertDict (m : List (String × CacheEntry α))
    (k : String) (e : CacheEntry α) (q : String × CacheEntry α → Bool) :
    ((insertDict m k e).filter q).length ≤ (m.filter q).length + 1 := by
  induction m with
  | nil =>
    simp only [insertDict]
    cases hq : q (k, e) <;> simp [List.filter_cons, hq]
  | cons p rest ih =>
    obtain ⟨k', e'⟩ := p
    by_cases hk : k' = k
    · simp only [insertDict, if_pos hk]
      cases hq : q (k, e) <;> cases hq' : q (k', e') <;>
        simp [List.filter_cons, hq, hq'] <;> omega
    · simp only [insertDict, if_neg hk]
      cases hq' : q (k', e') <;> simp [List.filter_cons, hq'] <;> omega

lemma lookupMem_eraseKey_self {m : List (String × CacheEntry α)}
    {k : String} (h : (m.map Prod.fst).Nodup) :
    lookupMem (eraseKey m k) k = none := by
  induction m with
  | nil => rfl
  | cons p rest ih =>
    obtain ⟨k', e'⟩ := p
    simp only [List.map_cons, List.nodup_cons] at h
    by_cases hk : k' = k
    · subst hk
      simp only [eraseKey, if_pos rfl]
      exact lookupMem_eq_none_of_not_mem h.1
    · simp only [eraseKey, if_neg hk, lookupMem, if_neg hk]
      exact ih h.2

/-! ### SmartCache behaviour lemmas -/

lemma set_memory_no_cap (st : CacheState α) (k : String) (v : α)
    (ttl now : Nat) (wOk : Bool)
    (hsize : (st.memory.filter (fun p => isValidEntry now p.2)).length ≤ 99) :
    (SmartCache.set st k v ttl now wOk).memory
      = (insertDict st.memory k ⟨v, now + ttl, now⟩).filter
          (fun p => isValidEntry now p.2) := by
  have hb := length_filter_insertDict st.memory k ⟨v, now + ttl, now⟩
    (fun p => isValidEntry now p.2)
  have hno : ¬((insertDict st.memory k ⟨v, now + ttl, now⟩).filter
      (fun p => isValidEntry now p.2)).length > 100 := by omega
  simp only [SmartCache.set, cleanup_memory_cache]
  rw [if_neg hno]

lemma set_redis (st : CacheState α) (k : String) (v : α)
    (ttl now : Nat) (wOk : Bool) :
    (SmartCache.set st k v ttl now wOk).redis
      = if st.redisAvail && wOk then insertDict st.redis k ⟨v, now + ttl, now⟩
        else st.redis := rfl

lemma set_redisAvail (st : CacheState α) (k : String) (v : α)
    (ttl now : Nat) (wOk : Bool) :
    (SmartCache.set st k v ttl now wOk).redisAvail = st.redisAvail := rfl

lemma nodup_set_memory (st : CacheState α) (k : String) (v : α)
    (ttl now : Nat) (wOk : Bool)
    (hnodup : (st.memory.map Prod.fst).Nodup)
    (hsize : (st.memory.filter (fun p => isValidEntry now p.2)).length ≤ 99) :
    ((SmartCache.set st k v ttl now wOk).memory.map Prod.fst).Nodup := by
  rw [set_memory_no_cap st k v ttl now wOk hsize]
  exact nodup_keys_filter _ (nodup_keys_insertDict hnodup)

lemma lookupMem_set_memory_self (st : CacheState α) (k : String) (v : α)
    (ttl now : Nat) (wOk : Bool)
    (hnodup : (st.memory.map Prod.fst).Nodup)
    (hsize : (st.memory.filter (fun p => isValidEntry now p.2)).length ≤ 99) :
    lookupMem (SmartCache.set st k v ttl now wOk).memory k
      = if isValidEntry now ⟨v, now + ttl, now⟩ then
          some ⟨v, now + ttl, now⟩
        else none := by
  rw [set_memory_no_cap st k v ttl now wOk hsize,
    lookupMem_filter _ (nodup_keys_insertDict hnodup),
    lookupMem_insertDict_self]
  rfl

lemma lookupMem_set_memory_other (st : CacheState α) {k k' : String} (v : α)
    (ttl now : Nat) (wOk : Bool)
    (hnodup : (st.memory.map Prod.fst).Nodup)
    (hsize : (st.memory.filter (fun p => isValidEntry now p.2)).length ≤ 99)
    (hne : k ≠ k') :
    lookupMem (SmartCache.set st k' v ttl now wOk).memory k
      = (lookupMem st.memory k).bind
          (fun e => if isValidEntry now e then some e else none) := by
  rw [set_memory_no_cap st k' v ttl now wOk hsize,
    lookupMem_filter _ (nodup_keys_insertDict hnodup),
    lookupMem_insertDict_ne _ _ hne]

lemma redisFetch_congr {σ₁ σ₂ : CacheState α} (k : String) (t : Nat)
    (g : Bool) (ha : σ₁.redisAvail = σ₂.redisAvail) (hr : σ₁.redis = σ₂.redis) :
    SmartCache.redisFetch σ₁ k t g = SmartCache.redisFetch σ₂ k t g := by
  unfold SmartCache.redisFetch
  rw [ha, hr]

lemma redisFetch_valid {σ : CacheState α} {k : String} {t : Nat} {g : Bool}
    {e : CacheEntry α} (h : SmartCache.redisFetch σ k t g = some e) :
    isValidEntry t e = true := by
  unfold SmartCache.redisFetch at h
  by_cases hav : (σ.redisAvail && g) = true
  · rw [if_pos hav] at h
    cases hl : lookupMem σ.redis k with
    | some e2 =>
      simp only [hl] at h
      by_cases hv : isValidEntry t e2 = true
      · rw [if_pos hv] at h
        cases h
        exact hv
      · rw [if_neg hv] at h
        exact Option.noConfusion h
    | none =>
      simp only [hl] at h
      exact Option.noConfusion h
  · rw [if_neg hav] at h
    exact Option.noConfusion h

/-- Case characterization of the memory half of `SmartCache.get`. -/
lemma memoryGet_cases (σ : CacheState α) (k : String) (t : Nat) :
    (∃ e, lookupMem σ.memory k = some e ∧ isValidEntry t e = true
      ∧ SmartCache.memoryGet σ k t
          = (some e.data,
              { σ with
                  hits := σ.hits + 1,
                  memory_hits := σ.memory_hits + 1 }))
    ∨ (∃ e, lookupMem σ.memory k = some e ∧ isValidEntry t e = false
      ∧ SmartCache.memoryGet σ k t
          = (none,
              { σ with
                  memory := eraseKey σ.memory k,
                  misses := σ.misses + 1 }))
    ∨ (lookupMem σ.memory k = none
      ∧ SmartCache.memoryGet σ k t = (none, { σ with misses := σ.misses + 1 })) := by
  cases hl : lookupMem σ.memory k with
  | some e =>
    by_cases hv : isValidEntry t e = true
    · refine Or.inl ⟨e, rfl, hv, ?_⟩
      unfold SmartCache.memoryGet
      simp only [hl, if_pos hv]
    · refine Or.inr (Or.inl ⟨e, rfl, by simpa using hv, ?_⟩)
      unfold SmartCache.memoryGet
      simp only [hl, if_neg hv]
  | none =>
    refine Or.inr (Or.inr ⟨rfl, ?_⟩)
    unfold SmartCache.memoryGet
    simp only [hl]

/-- Case characterization of `SmartCache.get`: either a Redis hit (state
changes only in the hit counters) or a fall-through to the memory tier. -/
lemma get_cases (σ : CacheState α) (k : String) (t : Nat) (g : Bool) :
    (∃ e, SmartCache.redisFetch σ k t g = some e
      ∧ SmartCache.get σ k t g
          = (some e.data,
              { σ with hits := σ.hits + 1, redis_hits := σ.redis_hits + 1 }))
    ∨ (SmartCache.redisFetch σ k t g = none
      ∧ SmartCache.get σ k t g = SmartCache.memoryGet σ k t) := by
  cases hf : SmartCache.redisFetch σ k t g with
  | some e =>
    refine Or.inl ⟨e, rfl, ?_⟩
    unfold SmartCache.get
    simp only [hf, if_pos (redisFetch_valid hf)]
  | none =>
    refine Or.inr ⟨rfl, ?_⟩
    unfold SmartCache.get
    simp only [hf]

/-- `SmartCache.get` never changes the stored tiers when it answers a
hit: the state updates touch only the hit counters (conjunct of C1). -/
lemma get_no_side_effect_on_hit (σ : CacheState α) (k : String) (t : Nat)
    (g : Bool) (x : α) (h : (SmartCache.get σ k t g).1 = some x) :
    (SmartCache.get σ k t g).2.memory = σ.memory
    ∧ (SmartCache.get σ k t g).2.redis = σ.redis := by
  rcases get_cases σ k t g with ⟨e, hf, heq⟩ | ⟨hf, heq⟩
  · rw [heq]
    exact ⟨rfl, rfl⟩
  · rw [heq] at h ⊢
    rcases memoryGet_cases σ k t with ⟨e, hl, hv, hmg⟩ | ⟨e, hl, hv, hmg⟩
      | ⟨hl, hmg⟩
    · rw [hmg]
      exact ⟨rfl, rfl⟩
    · rw [hmg] at h
      exact Option.noConfusion h
    · rw [hmg] at h
      exact Option.noConfusion h

/-- Reading the same key twice at the same instant gives the same answer:
the lazy deletion performed by an expired read is idempotent (conjunct of
C1). Requires the dict invariant (no duplicate keys) on the memory tier. -/
lemma get_idempotent (σ : CacheState α) (k : String) (t : Nat) (g : Bool)
    (hnodup : (σ.memory.map Prod.fst).Nodup) :
    (SmartCache.get (SmartCache.get σ k t g).2 k t g).1
      = (SmartCache.get σ k t g).1 := by
  have hsame : ∀ σ2 : CacheState α, σ2.redisAvail = σ.redisAvail →
      σ2.redis = σ.redis → σ2.memory = σ.memory →
      (SmartCache.get σ2 k t g).1 = (SmartCache.get σ k t g).1 := by
    intro σ2 ha hr hm
    rcases get_cases σ k t g with ⟨e, hf, heq⟩ | ⟨hf, heq⟩
    · have hf2 : SmartCache.redisFetch σ2 k t g = some e := by
        rw [redisFetch_congr k t g ha hr]
        exact hf
      rcases get_cases σ2 k t g with ⟨e2, hf2b, heq2⟩ | ⟨hf2b, heq2⟩
      · rw [hf2b] at hf2
        cases hf2
        rw [heq, heq2]
      · rw [hf2b] at hf2
        exact Option.noConfusion hf2
    · have hf2 : SmartCache.redisFetch σ2 k t g = none := by
        rw [redisFetch_congr k t g ha hr]
        exact hf
      rcases get_cases σ2 k t g with ⟨e2, hf2b, heq2⟩ | ⟨hf2b, heq2⟩
      · rw [hf2b] at hf2
        exact Option.noConfusion hf2
      · rw [heq, heq2]
        unfold SmartCache.memoryGet
        rw [hm]
        cases hl : lookupMem σ.memory k with
        | some e =>
          by_cases hv : isValidEntry t e = true
          · simp only [hl, if_pos hv]
          · simp only [hl, if_neg hv]
        | none =>
          simp only [hl]
  rcases get_cases σ k t g with ⟨e, hf, heq⟩ | ⟨hf, heq⟩
  · have h1 := hsame ({ σ with
        hits := σ.hits + 1,
        redis_hits := σ.redis_hits + 1 } : CacheState α) rfl rfl rfl
    rw [heq]
    exact h1.trans (by rw [heq])
  · rw [heq]
    rcases memoryGet_cases σ k t with ⟨e, hl, hv, hmg⟩ | ⟨e, hl, hv, hmg⟩
      | ⟨hl, hmg⟩
    · have h1 := hsame ({ σ with
          hits := σ.hits + 1,
          memory_hits := σ.memory_hits + 1 } : CacheState α) rfl rfl rfl
      rw [hmg]
      exact h1.trans (by rw [heq, hmg])
    · -- expired entry deleted: the second read misses again
      rw [hmg]
      have hf2 : SmartCache.redisFetch
          ({ σ with
              memory := eraseKey σ.memory k,
              misses := σ.misses + 1 } : CacheState α) k t g = none := by
        rw [redisFetch_congr k t g rfl rfl]
        exact hf
      rcases get_cases ({ σ with
          memory := eraseKey σ.memory k,
          misses := σ.misses + 1 } : CacheState α) k t g with
        ⟨e2, hf2b, heq2⟩ | ⟨hf2b, heq2⟩
      · rw [hf2b] at hf2
        exact Option.noConfusion hf2
      · rw [heq2]
        have hle : lookupMem (eraseKey σ.memory k) k = none :=
          lookupMem_eraseKey_self hnodup
        rcases memoryGet_cases ({ σ with
            memory := eraseKey σ.memory k,
            misses := σ.misses + 1 } : CacheState α) k t with
          ⟨e2, hl2, hv2, hmg2⟩ | ⟨e2, hl2, hv2, hmg2⟩ | ⟨hl2, hmg2⟩
        · rw [show ({ σ with
              memory := eraseKey σ.memory k,
              misses := σ.misses + 1 } : CacheState α).memory
              = eraseKey σ.memory k from rfl, hle] at hl2
          exact Option.noConfusion hl2
        · rw [show ({ σ with
              memory := eraseKey σ.memory k,
              misses := σ.misses + 1 } : CacheState α).memory
              = eraseKey σ.memory k from rfl, hle] at hl2
          exact Option.noConfusion hl2
        · rw [hmg2]
    · have h1 := hsame ({ σ with misses := σ.misses + 1 } : CacheState α)
        rfl rfl rfl
      rw [hmg]
      exact h1.trans (by rw [heq, hmg])

lemma redisFetch_set (st : CacheState α) (k : String) (v : α)
    (ttl now t : Nat) (wOk gOk : Bool)
    (hredis : wOk = true ∨ st.redisAvail = false) :
    SmartCache.redisFetch (SmartCache.set st k v ttl now wOk) k t gOk
      = if (st.redisAvail && gOk)
            && isValidEntry t ⟨v, now + ttl, now⟩ then
          some ⟨v, now + ttl, now⟩
        else none := by
  unfold SmartCache.redisFetch
  rw [set_redisAvail, set_redis]
  by_cases ha : st.redisAvail = true
  · have hw : wOk = true := by
      rcases hredis with h | h
      · exact h
      · rw [ha] at h
        exact Bool.noConfusion h
    by_cases hg : gOk = true
    · simp [ha, hw, hg, lookupMem_insertDict_self]
    · have hg' : gOk = false := by simpa using hg
      simp [ha, hg']
  · have ha' : st.redisAvail = false := by simpa using ha
    simp [ha']

/-- **C1.** Cache TTL correctness: after `SmartCache.set(k, v, ttl)` at
instant `now` (on a well-formed cache: unique memory keys, fewer than 100
live entries so the age cap does not fire, and a Redis tier that is
either written or absent — the source swallows Redis write errors),
a `SmartCache.get(k)` at any instant `t ≥ now` returns `v` exactly when
`t < now + ttl` and returns absent (`none`) when `t ≥ now + ttl`;
a read that answers a hit changes neither stored tier (only the hit
counters); and the expiry check is idempotent — an immediate second
`get` of the same key gives the same answer. -/
theorem smartcache_ttl_correct {α : Type} (st : CacheState α) (k : String)
    (v : α) (ttl now t : Nat) (wOk gOk : Bool)
    (hnodup : (st.memory.map Prod.fst).Nodup)
    (hsize : (st.memory.filter (fun p => isValidEntry now p.2)).length ≤ 99)
    (hmono : now ≤ t)
    (hredis : wOk = true ∨ st.redisAvail = false) :
    ((SmartCache.get (SmartCache.set st k v ttl now wOk) k t gOk).1
        = if t < now + ttl then some v else none)
    ∧ (∀ x, (SmartCache.get (SmartCache.set st k v ttl now wOk) k t gOk).1
          = some x →
        (SmartCache.get (SmartCache.set st k v ttl now wOk) k t gOk).2.memory
            = (SmartCache.set st k v ttl now wOk).memory
        ∧ (SmartCache.get (SmartCache.set st k v ttl now wOk) k t gOk).2.redis
            = (SmartCache.set st k v ttl now wOk).redis)
    ∧ ((SmartCache.get
          (SmartCache.get (SmartCache.set st k v ttl now wOk) k t gOk).2
          k t gOk).1
        = (SmartCache.get (SmartCache.set st k v ttl now wOk) k t gOk).1) := by
  have hmem_self := lookupMem_set_memory_self st k v ttl now wOk hnodup hsize
  have hfs := redisFetch_set st k v ttl now t wOk gOk hredis
  have hnodup' := nodup_set_memory st k v ttl now wOk hnodup hsize
  refine ⟨?_, fun x hx => get_no_side_effect_on_hit _ k t gOk x hx,
    get_idempotent _ k t gOk hnodup'⟩
  by_cases ht : t < now + ttl
  · have httl : now < now + ttl := lt_of_le_of_lt hmono ht
    have hvnow : isValidEntry now ⟨v, now + ttl, now⟩ = true := by
      simp only [isValidEntry, decide_eq_true_eq]
      omega
    have hvt : isValidEntry t ⟨v, now + ttl, now⟩ = true := by
      simp only [isValidEntry, decide_eq_true_eq]
      omega
    have hlook : lookupMem (SmartCache.set st k v ttl now wOk).memory k
        = some ⟨v, now + ttl, now⟩ := by
      rw [hmem_self, if_pos hvnow]
    rw [if_pos ht]
    rcases get_cases (SmartCache.set st k v ttl now wOk) k t gOk with
      ⟨e, hf, heq⟩ | ⟨hf, heq⟩
    · rw [hfs] at hf
      by_cases hc : ((st.redisAvail && gOk)
          && isValidEntry t ⟨v, now + ttl, now⟩) = true
      · rw [if_pos hc] at hf
        cases hf
        rw [heq]
      · rw [if_neg hc] at hf
        exact Option.noConfusion hf
    · rw [heq]
      rcases memoryGet_cases (SmartCache.set st k v ttl now wOk) k t with
        ⟨e, hl, hv, hmg⟩ | ⟨e, hl, hv, hmg⟩ | ⟨hl, hmg⟩
      · rw [hlook] at hl
        cases hl
        rw [hmg]
      · rw [hlook] at hl
        cases hl
        rw [hvt] at hv
        exact Bool.noConfusion hv
      · rw [hlook] at hl
        exact Option.noConfusion hl
  · have hvt : isValidEntry t ⟨v, now + ttl, now⟩ = false := by
      simp only [isValidEntry, decide_eq_false_iff_not]
      omega
    have hf0 : SmartCache.redisFetch (SmartCache.set st k v ttl now wOk)
        k t gOk = none := by
      rw [hfs, hvt]
      simp
    rw [if_neg ht]
    rcases get_cases (SmartCache.set st k v ttl now wOk) k t gOk with
      ⟨e, hf, heq⟩ | ⟨hf, heq⟩
    · rw [hf0] at hf
      exact Option.noConfusion hf
    · rw [heq]
      rcases memoryGet_cases (SmartCache.set st k v ttl now wOk) k t with
        ⟨e, hl, hv, hmg⟩ | ⟨e, hl, hv, hmg⟩ | ⟨hl, hmg⟩
      · rw [hmem_self] at hl
        by_cases hvnow : isValidEntry now ⟨v, now + ttl, now⟩ = true
        · rw [if_pos hvnow] at hl
          cases hl
          rw [hvt] at hv
          exact Bool.noConfusion hv
        · rw [if_neg hvnow] at hl
          exact Option.noConfusion hl
      · rw [hmg]
      · rw [hmg]

/-- Python values stored in the cache (JSON-serializable structures used
by the fallback and parser payloads). -/
inductive PyVal where
  | pstr (s : String)
  | pint (n : Int)
  | pfloat (q : ℚ)
  | pbool (b : Bool)
  | plist (l : List PyVal)
  | pdict (d : List (String × PyVal))

/-- A cache freshly constructed while Redis is unreachable
(`_initialize_redis` swallows the connection error and degrades to
local-only operation). -/
def emptyCacheState : CacheState PyVal :=
  { redisAvail := false, redis := [], memory := [], hits := 0, misses := 0,
    redis_hits := 0, memory_hits := 0 }

/-- The `pppoe_stats` payload of the C1 scenario: `{active:5, total:7}`. -/
def pppoeScenarioVal : PyVal :=
  PyVal.pdict [("active", PyVal.pint 5), ("total", PyVal.pint 7)]

/-- Witness for C1: the spec scenario — a `pppoe_stats` entry set at
`t = 0` with TTL 20 answers the stored value at `t = 19` and absent at
`t = 21`. -/
theorem smartcache_ttl_correct_witness :
    ((SmartCache.get
        (SmartCache.set emptyCacheState "pppoe_stats" pppoeScenarioVal 20 0 true)
        "pppoe_stats" 19 true).1 = some pppoeScenarioVal)
    ∧ ((SmartCache.get
        (SmartCache.set emptyCacheState "pppoe_stats" pppoeScenarioVal 20 0 true)
        "pppoe_stats" 21 true).1 = none) := by
  constructor
  · have h := smartcache_ttl_correct emptyCacheState "pppoe_stats"
      pppoeScenarioVal 20 0 19 true true
      (by simp [emptyCacheState]) (by simp [emptyCacheState])
      (by omega) (Or.inl rfl)
    rw [h.1]
    norm_num
  · have h := smartcache_ttl_correct emptyCacheState "pppoe_stats"
      pppoeScenarioVal 20 0 21 true true
      (by simp [emptyCacheState]) (by simp [emptyCacheState])
      (by omega) (Or.inl rfl)
    rw [h.1]
    norm_num

/-- **C5.** Cache tiering fallback: when the remote tier is unavailable
(`redis_client is None`) or erroring (both the `setex` and the later
`get` raise, and the source swallows both), `SmartCache.set(k, v, ttl)`
still stores the entry in the local in-process tier, so a
`SmartCache.get(k)` before TTL expiry returns `v`, served by the local
tier (the `memory_hits` counter is the one that advances); no exception
reaches the caller (the embedding is a total function). -/
theorem cache_tier_fallback {α : Type} (st : CacheState α) (k : String)
    (v : α) (ttl now t : Nat) (wOk gOk : Bool)
    (hnodup : (st.memory.map Prod.fst).Nodup)
    (hsize : (st.memory.filter (fun p => isValidEntry now p.2)).length ≤ 99)
    (hmono : now ≤ t) (ht : t < now + ttl)
    (hremote : st.redisAvail = false ∨ (wOk = false ∧ gOk = false)) :
    (SmartCache.get (SmartCache.set st k v ttl now wOk) k t gOk).1 = some v
    ∧ (SmartCache.get (SmartCache.set st k v ttl now wOk) k t gOk).2.memory_hits
        = (SmartCache.set st k v ttl now wOk).memory_hits + 1 := by
  have hf0 : SmartCache.redisFetch (SmartCache.set st k v ttl now wOk)
      k t gOk = none := by
    unfold SmartCache.redisFetch
    rw [set_redisAvail]
    rcases hremote with h | ⟨hw, hg⟩
    · simp [h]
    · simp [hg]
  have hvnow : isValidEntry now ⟨v, now + ttl, now⟩ = true := by
    simp only [isValidEntry, decide_eq_true_eq]
    omega
  have hvt : isValidEntry t ⟨v, now + ttl, now⟩ = true := by
    simp only [isValidEntry, decide_eq_true_eq]
    omega
  have hlook : lookupMem (SmartCache.set st k v ttl now wOk).memory k
      = some ⟨v, now + ttl, now⟩ := by
    rw [lookupMem_set_memory_self st k v ttl now wOk hnodup hsize, if_pos hvnow]
  rcases get_cases (SmartCache.set st k v ttl now wOk) k t gOk with
    ⟨e, hf, heq⟩ | ⟨hf, heq⟩
  · rw [hf0] at hf
    exact Option.noConfusion hf
  · rw [heq]
    rcases memoryGet_cases (SmartCache.set st k v ttl now wOk) k t with
      ⟨e, hl, hv, hmg⟩ | ⟨e, hl, hv, hmg⟩ | ⟨hl, hmg⟩
    · rw [hlook] at hl
      cases hl
      rw [hmg]
      exact ⟨rfl, rfl⟩
    · rw [hlook] at hl
      cases hl
      rw [hvt] at hv
      exact Bool.noConfusion hv
    · rw [hlook] at hl
      exact Option.noConfusion hl

/-- Witness for C5: with the remote tier unavailable, a value set at
`t = 0` with TTL 45 is still served from the local tier at `t = 10`. -/
theorem cache_tier_fallback_witness :
    (SmartCache.get
        (SmartCache.set emptyCacheState "router_interfaces"
          (PyVal.plist [PyVal.pstr "GigabitEthernet0/0/1"]) 45 0 false)
        "router_interfaces" 10 false).1
      = some (PyVal.plist [PyVal.pstr "GigabitEthernet0/0/1"])
    ∧ emptyCacheState.redisAvail = false :=
  ⟨(cache_tier_fallback emptyCacheState "router_interfaces"
      (PyVal.plist [PyVal.pstr "GigabitEthernet0/0/1"]) 45 0 10 false false
      (by simp [emptyCacheState]) (by simp [emptyCacheState])
      (by omega) (by omega) (Or.inl rfl)).1, rfl⟩

/-! ## services/background_service.py :
`RouterBackgroundService._initial_data_collection` /
`_set_fallback_data`

When the startup connectivity test fails, the poller writes structured
empty/zeroed fallback records for every data category's cache key, each
with TTL 60 s, plus an offline `router_status` marker. The reachable
branch runs the normal per-category collection, abstracted here as an
opaque `collect` function (it is irrelevant to C7, which is about the
unreachable branch). -/

/-- `fallback_data['pppoe_stats']`. -/
def fb_pppoe : PyVal :=
  PyVal.pdict [("total", PyVal.pint 0), ("active", PyVal.pint 0),
    ("peak", PyVal.pint 0), ("max_users", PyVal.pint 0)]

/-- `fallback_data['system_metrics']`. -/
def fb_system : PyVal :=
  PyVal.pdict [("cpu", PyVal.pint 0), ("memory", PyVal.pint 0),
    ("uptime", PyVal.pstr "Unknown"), ("version", PyVal.pstr "Unknown"),
    ("serial", PyVal.pstr "Unknown"), ("temperature", PyVal.pint 0),
    ("power_status", PyVal.pstr "Normal"), ("model", PyVal.pstr "NE8000")]

/-- `fallback_data['network_traffic']`. -/
def fb_traffic : PyVal :=
  PyVal.pdict [("inbound", PyVal.pfloat 0), ("outbound", PyVal.pfloat 0),
    ("total", PyVal.pfloat 0), ("peak_in", PyVal.pfloat 0),
    ("peak_out", PyVal.pfloat 0)]

/-- The offline `router_status` marker. -/
def fb_status : PyVal :=
  PyVal.pdict [("online", PyVal.pbool false),
    ("last_error", PyVal.pstr "Connection failed")]

/-- The `fallback_data` dict of `_set_fallback_data`, in source order:
one cache key per data category. -/
def fallback_data : List (String × PyVal) :=
  [("router_interfaces", PyVal.plist []),
   ("pppoe_stats", fb_pppoe),
   ("system_metrics", fb_system),
   ("network_traffic", fb_traffic)]

/-- Source translation of `_set_fallback_data`: `router_cache.set(key,
data, 60)` for every category, then the offline marker with TTL 60. -/
def set_fallback_data (st : CacheState PyVal) (now : Nat) (wOk : Bool) :
    CacheState PyVal :=
  let st1 := fallback_data.foldl
    (fun s kv => SmartCache.set s kv.1 kv.2 60 now wOk) st
  SmartCache.set st1 "router_status" fb_status 60 now wOk

/-- Source translation of `_initial_data_collection`: if the
connectivity test fails, write the fallback data and return; otherwise
run the per-category collection (abstracted as `collect`). -/
def initial_data_collection (connOk : Bool)
    (collect : CacheState PyVal → CacheState PyVal)
    (st : CacheState PyVal) (now : Nat) (wOk : Bool) : CacheState PyVal :=
  if connOk then collect st else set_fallback_data st now wOk

lemma lookup_after_set_other_preserved (σ : CacheState α) {k k' : String}
    (v' : α) (ttl' now : Nat) (w : Bool) (e : CacheEntry α)
    (hnodup : (σ.memory.map Prod.fst).Nodup)
    (hsize : (σ.memory.filter (fun p => isValidEntry now p.2)).length ≤ 99)
    (hne : k ≠ k')
    (hl : lookupMem σ.memory k = some e)
    (hv : isValidEntry now e = true) :
    lookupMem (SmartCache.set σ k' v' ttl' now w).memory k = some e := by
  rw [lookupMem_set_memory_other σ v' ttl' now w hnodup hsize hne, hl]
  simp [hv]

lemma sizeValid_set_le (σ : CacheState α) (k : String) (v : α)
    (ttl now : Nat) (w : Bool)
    (hsize : (σ.memory.filter (fun p => isValidEntry now p.2)).length ≤ 99) :
    ((SmartCache.set σ k v ttl now w).memory.filter
        (fun p => isValidEntry now p.2)).length
      ≤ (σ.memory.filter (fun p => isValidEntry now p.2)).length + 1 := by
  rw [set_memory_no_cap σ k v ttl now w hsize]
  calc (((insertDict σ.memory k ⟨v, now + ttl, now⟩).filter
        (fun p => isValidEntry now p.2)).filter
          (fun p => isValidEntry now p.2)).length
      ≤ ((insertDict σ.memory k ⟨v, now + ttl, now⟩).filter
          (fun p => isValidEntry now p.2)).length :=
        List.length_filter_le _ _
    _ ≤ (σ.memory.filter (fun p => isValidEntry now p.2)).length + 1 :=
        length_filter_insertDict σ.memory k _ _

lemma redis_lookup_set_other (σ : CacheState α) {k k' : String} (v' : α)
    (ttl' now : Nat) (w : Bool) (hne : k ≠ k') :
    lookupMem (SmartCache.set σ k' v' ttl' now w).redis k
      = lookupMem σ.redis k := by
  rw [set_redis]
  by_cases h : (σ.redisAvail && w) = true
  · rw [if_pos h, lookupMem_insertDict_ne _ _ hne]
  · rw [if_neg h]

lemma redis_lookup_set_self (σ : CacheState α) (k : String) (v : α)
    (ttl now : Nat) (w : Bool) (h : (σ.redisAvail && w) = true) :
    lookupMem (SmartCache.set σ k v ttl now w).redis k
      = some ⟨v, now + ttl, now⟩ := by
  rw [set_redis, if_pos h, lookupMem_insertDict_self]

/-- **C7.** Device unreachable at poller startup: the initial collection
pass takes the fallback branch and populates every data category's cache
key with a structured empty/zeroed record whose entry expires exactly
`now + 60` (TTL 60 s ≤ 60 s) instead of leaving the keys absent; in
particular `router_interfaces` holds the empty list, and a `get` of it
at `now` answers that empty list. (Hypotheses: dict key uniqueness,
at most 94 live entries so the age cap stays quiescent across the five
writes, and a Redis tier that is written or absent.) -/
theorem poller_fallback_on_unreachable (st : CacheState PyVal) (now : Nat)
    (wOk gOk : Bool) (collect : CacheState PyVal → CacheState PyVal)
    (hnodup : (st.memory.map Prod.fst).Nodup)
    (hsize : (st.memory.filter (fun p => isValidEntry now p.2)).length ≤ 94)
    (hredis : wOk = true ∨ st.redisAvail = false) :
    (∀ kv ∈ fallback_data,
      lookupMem (initial_data_collection false collect st now wOk).memory kv.1
        = some ⟨kv.2, now + 60, now⟩)
    ∧ (SmartCache.get (initial_data_collection false collect st now wOk)
        "router_interfaces" now gOk).1 = some (PyVal.plist []) := by
  have hv60 : ∀ v : PyVal,
      isValidEntry now (⟨v, now + 60, now⟩ : CacheEntry PyVal) = true := by
    intro v
    simp only [isValidEntry, decide_eq_true_eq]
    omega
  have hred : initial_data_collection false collect st now wOk
      = (SmartCache.set (SmartCache.set (SmartCache.set (SmartCache.set (SmartCache.set st "router_interfaces" (PyVal.plist []) 60 now wOk) "pppoe_stats" fb_pppoe 60 now wOk) "system_metrics" fb_system 60 now wOk) "network_traffic" fb_traffic 60 now wOk) "router_status" fb_status 60 now wOk) := rfl
  have hz1 : ((SmartCache.set st "router_interfaces" (PyVal.plist []) 60 now wOk).memory.filter (fun p => isValidEntry now p.2)).length ≤ 95 := by
    have hstep := sizeValid_set_le st "router_interfaces" (PyVal.plist []) 60 now wOk (by omega)
    omega
  have hn1 : ((SmartCache.set st "router_interfaces" (PyVal.plist []) 60 now wOk).memory.map Prod.fst).Nodup :=
    nodup_set_memory st "router_interfaces" (PyVal.plist []) 60 now wOk hnodup (by omega)
  have hz2 : ((SmartCache.set (SmartCache.set st "router_interfaces" (PyVal.plist []) 60 now wOk) "pppoe_stats" fb_pppoe 60 now wOk).memory.filter (fun p => isValidEntry now p.2)).length ≤ 96 := by
    have hstep := sizeValid_set_le (SmartCache.set st "router_interfaces" (PyVal.plist []) 60 now wOk) "pppoe_stats" fb_pppoe 60 now wOk (by omega)
    omega
  have hn2 : ((SmartCache.set (SmartCache.set st "router_interfaces" (PyVal.plist []) 60 now wOk) "pppoe_stats" fb_pppoe 60 now wOk).memory.map Prod.fst).Nodup :=
    nodup_set_memory (SmartCache.set st "router_interfaces" (PyVal.plist []) 60 now wOk) "pppoe_stats" fb_pppoe 60 now wOk hn1 (by omega)
  have hz3 : ((SmartCache.set (SmartCache.set (SmartCache.set st "router_interfaces" (PyVal.plist []) 60 now wOk) "pppoe_stats" fb_pppoe 60 now wOk) "system_metrics" fb_system 60 now wOk).memory.filter (fun p => isValidEntry now p.2)).length ≤ 97 := by
    have hstep := sizeValid_set_le (SmartCache.set (SmartCache.set st "router_interfaces" (PyVal.plist []) 60 now wOk) "pppoe_stats" fb_pppoe 60 now wOk) "system_metrics" fb_system 60 now wOk (by omega)
    omega
  have hn3 : ((SmartCache.set (SmartCache.set (SmartCache.set st "router_interfaces" (PyVal.plist []) 60 now wOk) "pppoe_stats" fb_pppoe 60 now wOk) "system_metrics" fb_system 60 now wOk).memory.map Prod.fst).Nodup :=
    nodup_set_memory (SmartCache.set (SmartCache.set st "router_interfaces" (PyVal.plist []) 60 now wOk) "pppoe_stats" fb_pppoe 60 now wOk) "system_metrics" fb_system 60 now wOk hn2 (by omega)
  have hz4 : ((SmartCache.set (SmartCache.set (SmartCache.set (SmartCache.set st "router_interfaces" (PyVal.plist []) 60 now wOk) "pppoe_stats" fb_pppoe 60 now wOk) "system_metrics" fb_system 60 now wOk) "network_traffic" fb_traffic 60 now wOk).memory.filter (fun p => isValidEntry now p.2)).length ≤ 98 := by
    have hstep := sizeValid_set_le (SmartCache.set (SmartCache.set (SmartCache.set st "router_interfaces" (PyVal.plist []) 60 now wOk) "pppoe_stats" fb_pppoe 60 now wOk) "system_metrics" fb_system 60 now wOk) "network_traffic" fb_traffic 60 now wOk (by omega)
    omega
  have hn4 : ((SmartCache.set (SmartCache.set (SmartCache.set (SmartCache.set st "router_interfaces" (PyVal.plist []) 60 now wOk) "pppoe_stats" fb_pppoe 60 now wOk) "system_metrics" fb_system 60 now wOk) "network_traffic" fb_traffic 60 now wOk).memory.map Prod.fst).Nodup :=
    nodup_set_memory (SmartCache.set (SmartCache.set (SmartCache.set st "router_interfaces" (PyVal.plist []) 60 now wOk) "pppoe_stats" fb_pppoe 60 now wOk) "system_metrics" fb_system 60 now wOk) "network_traffic" fb_traffic 60 now wOk hn3 (by omega)
  have hz5 : ((SmartCache.set (SmartCache.set (SmartCache.set (SmartCache.set (SmartCache.set st "router_interfaces" (PyVal.plist []) 60 now wOk) "pppoe_stats" fb_pppoe 60 now wOk) "system_metrics" fb_system 60 now wOk) "network_traffic" fb_traffic 60 now wOk) "router_status" fb_status 60 now wOk).memory.filter (fun p => isValidEntry now p.2)).length ≤ 99 := by
    have hstep := sizeValid_set_le (SmartCache.set (SmartCache.set (SmartCache.set (SmartCache.set st "router_interfaces" (PyVal.plist []) 60 now wOk) "pppoe_stats" fb_pppoe 60 now wOk) "system_metrics" fb_system 60 now wOk) "network_traffic" fb_traffic 60 now wOk) "router_status" fb_status 60 now wOk (by omega)
    omega
  have hn5 : ((SmartCache.set (SmartCache.set (SmartCache.set (SmartCache.set (SmartCache.set st "router_interfaces" (PyVal.plist []) 60 now wOk) "pppoe_stats" fb_pppoe 60 now wOk) "system_metrics" fb_system 60 now wOk) "network_traffic" fb_traffic 60 now wOk) "router_status" fb_status 60 now wOk).memory.map Prod.fst).Nodup :=
    nodup_set_memory (SmartCache.set (SmartCache.set (SmartCache.set (SmartCache.set st "router_interfaces" (PyVal.plist []) 60 now wOk) "pppoe_stats" fb_pppoe 60 now wOk) "system_metrics" fb_system 60 now wOk) "network_traffic" fb_traffic 60 now wOk) "router_status" fb_status 60 now wOk hn4 (by omega)
  have hl1_1 : lookupMem (SmartCache.set st "router_interfaces" (PyVal.plist []) 60 now wOk).memory "router_interfaces" = some (⟨(PyVal.plist []), now + 60, now⟩ : CacheEntry PyVal) := by
    rw [lookupMem_set_memory_self st "router_interfaces" (PyVal.plist []) 60 now wOk
      hnodup (by omega), if_pos (hv60 _)]
  have hl1_2 : lookupMem (SmartCache.set (SmartCache.set st "router_interfaces" (PyVal.plist []) 60 now wOk) "pppoe_stats" fb_pppoe 60 now wOk).memory "router_interfaces" = some (⟨(PyVal.plist []), now + 60, now⟩ : CacheEntry PyVal) :=
    lookup_after_set_other_preserved (SmartCache.set st "router_interfaces" (PyVal.plist []) 60 now wOk) fb_pppoe 60 now wOk _
      hn1 (by omega) (by decide) hl1_1 (hv60 _)
  have hl1_3 : lookupMem (SmartCache.set (SmartCache.set (SmartCache.set st "router_interfaces" (PyVal.plist []) 60 now wOk) "pppoe_stats" fb_pppoe 60 now wOk) "system_metrics" fb_system 60 now wOk).memory "router_interfaces" = some (⟨(PyVal.plist []), now + 60, now⟩ : CacheEntry PyVal) :=
    lookup_after_set_other_preserved (SmartCache.set (SmartCache.set st "router_interfaces" (PyVal.plist []) 60 now wOk) "pppoe_stats" fb_pppoe 60 now wOk) fb_system 60 now wOk _
      hn2 (by omega) (by decide) hl1_2 (hv60 _)
  have hl1_4 : lookupMem (SmartCache.set (SmartCache.set (SmartCache.set (SmartCache.set st "router_interfaces" (PyVal.plist []) 60 now wOk) "pppoe_stats" fb_pppoe 60 now wOk) "system_metrics" fb_system 60 now wOk) "network_traffic" fb_traffic 60 now wOk).memory "router_interfaces" = some (⟨(PyVal.plist []), now + 60, now⟩ : CacheEntry PyVal) :=
    lookup_after_set_other_preserved (SmartCache.set (SmartCache.set (SmartCache.set st "router_interfaces" (PyVal.plist []) 60 now wOk) "pppoe_stats" fb_pppoe 60 now wOk) "system_metrics" fb_system 60 now wOk) fb_traffic 60 now wOk _
      hn3 (by omega) (by decide) hl1_3 (hv60 _)
  have hl1_5 : lookupMem (SmartCache.set (SmartCache.set (SmartCache.set (SmartCache.set (SmartCache.set st "router_interfaces" (PyVal.plist []) 60 now wOk) "pppoe_stats" fb_pppoe 60 now wOk) "system_metrics" fb_system 60 now wOk) "network_traffic" fb_traffic 60 now wOk) "router_status" fb_status 60 now wOk).memory "router_interfaces" = some (⟨(PyVal.plist []), now + 60, now⟩ : CacheEntry PyVal) :=
    lookup_after_set_other_preserved (SmartCache.set (SmartCache.set (SmartCache.set (SmartCache.set st "router_interfaces" (PyVal.plist []) 60 now wOk) "pppoe_stats" fb_pppoe 60 now wOk) "system_metrics" fb_system 60 now wOk) "network_traffic" fb_traffic 60 now wOk) fb_status 60 now wOk _
      hn4 (by omega) (by decide) hl1_4 (hv60 _)
  have hl2_2 : lookupMem (SmartCache.set (SmartCache.set st "router_interfaces" (PyVal.plist []) 60 now wOk) "pppoe_stats" fb_pppoe 60 now wOk).memory "pppoe_stats" = some (⟨fb_pppoe, now + 60, now⟩ : CacheEntry PyVal) := by
    rw [lookupMem_set_memory_self (SmartCache.set st "router_interfaces" (PyVal.plist []) 60 now wOk) "pppoe_stats" fb_pppoe 60 now wOk
      hn1 (by omega), if_pos (hv60 _)]
  have hl2_3 : lookupMem (SmartCache.set (SmartCache.set (SmartCache.set st "router_interfaces" (PyVal.plist []) 60 now wOk) "pppoe_stats" fb_pppoe 60 now wOk) "system_metrics" fb_system 60 now wOk).memory "pppoe_stats" = some (⟨fb_pppoe, now + 60, now⟩ : CacheEntry PyVal) :=
    lookup_after_set_other_preserved (SmartCache.set (SmartCache.set st "router_interfaces" (PyVal.plist []) 60 now wOk) "pppoe_stats" fb_pppoe 60 now wOk) fb_system 60 now wOk _
      hn2 (by omega) (by decide) hl2_2 (hv60 _)
  have hl2_4 : lookupMem (SmartCache.set (SmartCache.set (SmartCache.set (SmartCache.set st "router_interfaces" (PyVal.plist []) 60 now wOk) "pppoe_stats" fb_pppoe 60 now wOk) "system_metrics" fb_system 60 now wOk) "network_traffic" fb_traffic 60 now wOk).memory "pppoe_stats" = some (⟨fb_pppoe, now + 60, now⟩ : CacheEntry PyVal) :=
    lookup_after_set_other_preserved (SmartCache.set (SmartCache.set (SmartCache.set st "router_interfaces" (PyVal.plist []) 60 now wOk) "pppoe_stats" fb_pppoe 60 now wOk) "system_metrics" fb_system 60 now wOk) fb_traffic 60 now wOk _
      hn3 (by omega) (by decide) hl2_3 (hv60 _)
  have hl2_5 : lookupMem (SmartCache.set (SmartCache.set (SmartCache.set (SmartCache.set (SmartCache.set st "router_interfaces" (PyVal.plist []) 60 now wOk) "pppoe_stats" fb_pppoe 60 now wOk) "system_metrics" fb_system 60 now wOk) "network_traffic" fb_traffic 60 now wOk) "router_status" fb_status 60 now wOk).memory "pppoe_stats" = some (⟨fb_pppoe, now + 60, now⟩ : CacheEntry PyVal) :=
    lookup_after_set_other_preserved (SmartCache.set (SmartCache.set (SmartCache.set (SmartCache.set st "router_interfaces" (PyVal.plist []) 60 now wOk) "pppoe_stats" fb_pppoe 60 now wOk) "system_metrics" fb_system 60 now wOk) "network_traffic" fb_traffic 60 now wOk) fb_status 60 now wOk _
      hn4 (by omega) (by decide) hl2_4 (hv60 _)
  have hl3_3 : lookupMem (SmartCache.set (SmartCache.set (SmartCache.set st "router_interfaces" (PyVal.plist []) 60 now wOk) "pppoe_stats" fb_pppoe 60 now wOk) "system_metrics" fb_system 60 now wOk).memory "system_metrics" = some (⟨fb_system, now + 60, now⟩ : CacheEntry PyVal) := by
    rw [lookupMem_set_memory_self (SmartCache.set (SmartCache.set st "router_interfaces" (PyVal.plist []) 60 now wOk) "pppoe_stats" fb_pppoe 60 now wOk) "system_metrics" fb_system 60 now wOk
      hn2 (by omega), if_pos (hv60 _)]
  have hl3_4 : lookupMem (SmartCache.set (SmartCache.set (SmartCache.set (SmartCache.set st "router_interfaces" (PyVal.plist []) 60 now wOk) "pppoe_stats" fb_pppoe 60 now wOk) "system_metrics" fb_system 60 now wOk) "network_traffic" fb_traffic 60 now wOk).memory "system_metrics" = some (⟨fb_system, now + 60, now⟩ : CacheEntry PyVal) :=
    lookup_after_set_other_preserved (SmartCache.set (SmartCache.set (SmartCache.set st "router_interfaces" (PyVal.plist []) 60 now wOk) "pppoe_stats" fb_pppoe 60 now wOk) "system_metrics" fb_system 60 now wOk) fb_traffic 60 now wOk _
      hn3 (by omega) (by decide) hl3_3 (hv60 _)
  have hl3_5 : lookupMem (SmartCache.set (SmartCache.set (SmartCache.set (SmartCache.set (SmartCache.set st "router_interfaces" (PyVal.plist []) 60 now wOk) "pppoe_stats" fb_pppoe 60 now wOk) "system_metrics" fb_system 60 now wOk) "network_traffic" fb_traffic 60 now wOk) "router_status" fb_status 60 now wOk).memory "system_metrics" = some (⟨fb_system, now + 60, now⟩ : CacheEntry PyVal) :=
    lookup_after_set_other_preserved (SmartCache.set (SmartCache.set (SmartCache.set (SmartCache.set st "router_interfaces" (PyVal.plist []) 60 now wOk) "pppoe_stats" fb_pppoe 60 now wOk) "system_metrics" fb_system 60 now wOk) "network_traffic" fb_traffic 60 now wOk) fb_status 60 now wOk _
      hn4 (by omega) (by decide) hl3_4 (hv60 _)
  have hl4_4 : lookupMem (SmartCache.set (SmartCache.set (SmartCache.set (SmartCache.set st "router_interfaces" (PyVal.plist []) 60 now wOk) "pppoe_stats" fb_pppoe 60 now wOk) "system_metrics" fb_system 60 now wOk) "network_traffic" fb_traffic 60 now wOk).memory "network_traffic" = some (⟨fb_traffic, now + 60, now⟩ : CacheEntry PyVal) := by
    rw [lookupMem_set_memory_self (SmartCache.set (SmartCache.set (SmartCache.set st "router_interfaces" (PyVal.plist []) 60 now wOk) "pppoe_stats" fb_pppoe 60 now wOk) "system_metrics" fb_system 60 now wOk) "network_traffic" fb_traffic 60 now wOk
      hn3 (by omega), if_pos (hv60 _)]
  have hl4_5 : lookupMem (SmartCache.set (SmartCache.set (SmartCache.set (SmartCache.set (SmartCache.set st "router_interfaces" (PyVal.plist []) 60 now wOk) "pppoe_stats" fb_pppoe 60 now wOk) "system_metrics" fb_system 60 now wOk) "network_traffic" fb_traffic 60 now wOk) "router_status" fb_status 60 now wOk).memory "network_traffic" = some (⟨fb_traffic, now + 60, now⟩ : CacheEntry PyVal) :=
    lookup_after_set_other_preserved (SmartCache.set (SmartCache.set (SmartCache.set (SmartCache.set st "router_interfaces" (PyVal.plist []) 60 now wOk) "pppoe_stats" fb_pppoe 60 now wOk) "system_metrics" fb_system 60 now wOk) "network_traffic" fb_traffic 60 now wOk) fb_status 60 now wOk _
      hn4 (by omega) (by decide) hl4_4 (hv60 _)
  have hget : (SmartCache.get (SmartCache.set (SmartCache.set (SmartCache.set (SmartCache.set (SmartCache.set st "router_interfaces" (PyVal.plist []) 60 now wOk) "pppoe_stats" fb_pppoe 60 now wOk) "system_metrics" fb_system 60 now wOk) "network_traffic" fb_traffic 60 now wOk) "router_status" fb_status 60 now wOk)
      "router_interfaces" now gOk).1 = some (PyVal.plist []) := by
    rcases get_cases (SmartCache.set (SmartCache.set (SmartCache.set (SmartCache.set (SmartCache.set st "router_interfaces" (PyVal.plist []) 60 now wOk) "pppoe_stats" fb_pppoe 60 now wOk) "system_metrics" fb_system 60 now wOk) "network_traffic" fb_traffic 60 now wOk) "router_status" fb_status 60 now wOk) "router_interfaces" now gOk with
      ⟨e, hf, heq⟩ | ⟨hf, heq⟩
    · have hfe : e = (⟨(PyVal.plist []), now + 60, now⟩ : CacheEntry PyVal) := by
        unfold SmartCache.redisFetch at hf
        by_cases hag : ((SmartCache.set (SmartCache.set (SmartCache.set (SmartCache.set (SmartCache.set st "router_interfaces" (PyVal.plist []) 60 now wOk) "pppoe_stats" fb_pppoe 60 now wOk) "system_metrics" fb_system 60 now wOk) "network_traffic" fb_traffic 60 now wOk) "router_status" fb_status 60 now wOk).redisAvail && gOk) = true
        · rw [if_pos hag] at hf
          have havail : st.redisAvail = true := by
            have hpres : (SmartCache.set (SmartCache.set (SmartCache.set (SmartCache.set (SmartCache.set st "router_interfaces" (PyVal.plist []) 60 now wOk) "pppoe_stats" fb_pppoe 60 now wOk) "system_metrics" fb_system 60 now wOk) "network_traffic" fb_traffic 60 now wOk) "router_status" fb_status 60 now wOk).redisAvail = st.redisAvail := rfl
            rw [hpres] at hag
            exact (Bool.and_eq_true _ _ |>.mp hag).1
          have hw : wOk = true := by
            rcases hredis with h | h
            · exact h
            · rw [havail] at h
              exact Bool.noConfusion h
          have hrl : lookupMem (SmartCache.set (SmartCache.set (SmartCache.set (SmartCache.set (SmartCache.set st "router_interfaces" (PyVal.plist []) 60 now wOk) "pppoe_stats" fb_pppoe 60 now wOk) "system_metrics" fb_system 60 now wOk) "network_traffic" fb_traffic 60 now wOk) "router_status" fb_status 60 now wOk).redis "router_interfaces"
              = some (⟨(PyVal.plist []), now + 60, now⟩ : CacheEntry PyVal) := by
            rw [redis_lookup_set_other (SmartCache.set (SmartCache.set (SmartCache.set (SmartCache.set st "router_interfaces" (PyVal.plist []) 60 now wOk) "pppoe_stats" fb_pppoe 60 now wOk) "system_metrics" fb_system 60 now wOk) "network_traffic" fb_traffic 60 now wOk) fb_status 60 now wOk (by decide),
              redis_lookup_set_other (SmartCache.set (SmartCache.set (SmartCache.set st "router_interfaces" (PyVal.plist []) 60 now wOk) "pppoe_stats" fb_pppoe 60 now wOk) "system_metrics" fb_system 60 now wOk) fb_traffic 60 now wOk (by decide),
              redis_lookup_set_other (SmartCache.set (SmartCache.set st "router_interfaces" (PyVal.plist []) 60 now wOk) "pppoe_stats" fb_pppoe 60 now wOk) fb_system 60 now wOk (by decide),
              redis_lookup_set_other (SmartCache.set st "router_interfaces" (PyVal.plist []) 60 now wOk) fb_pppoe 60 now wOk (by decide),
              redis_lookup_set_self st "router_interfaces" (PyVal.plist []) 60 now wOk
                (by rw [havail, hw]; rfl)]
          simp only [hrl] at hf
          rw [if_pos (hv60 _)] at hf
          exact (Option.some.inj hf).symm
        · rw [if_neg hag] at hf
          exact Option.noConfusion hf
      rw [heq, hfe]
    · rw [heq]
      rcases memoryGet_cases (SmartCache.set (SmartCache.set (SmartCache.set (SmartCache.set (SmartCache.set st "router_interfaces" (PyVal.plist []) 60 now wOk) "pppoe_stats" fb_pppoe 60 now wOk) "system_metrics" fb_system 60 now wOk) "network_traffic" fb_traffic 60 now wOk) "router_status" fb_status 60 now wOk) "router_interfaces" now with
        ⟨e, hl, hv, hmg⟩ | ⟨e, hl, hv, hmg⟩ | ⟨hl, hmg⟩
      · rw [hl1_5] at hl
        cases hl
        rw [hmg]
      · rw [hl1_5] at hl
        cases hl
        rw [hv60] at hv
        exact Bool.noConfusion hv
      · rw [hl1_5] at hl
        exact Option.noConfusion hl
  rw [hred]
  refine ⟨?_, hget⟩
  intro kv hkv
  simp only [fallback_data, List.mem_cons, List.not_mem_nil, or_false] at hkv
  rcases hkv with rfl | rfl | rfl | rfl
  · exact hl1_5
  · exact hl2_5
  · exact hl3_5
  · exact hl4_5

/-- Witness for C7: from an empty local-only cache, the unreachable-device
startup path leaves `router_interfaces` populated with the empty list
(entry expiring at t = 60) rather than absent. -/
theorem poller_fallback_on_unreachable_witness :
    (∀ kv ∈ fallback_data,
      lookupMem (initial_data_collection false id emptyCacheState 0 true).memory
        kv.1 = some ⟨kv.2, 60, 0⟩)
    ∧ (SmartCache.get (initial_data_collection false id emptyCacheState 0 true)
        "router_interfaces" 0 true).1 = some (PyVal.plist []) := by
  have h := poller_fallback_on_unreachable emptyCacheState 0 true true id
    (by simp [emptyCacheState]) (by simp [emptyCacheState]) (Or.inl rfl)
  exact h

/-! ## services/router.py : `RouterConnection.execute_commands`
(decorated `@retry_on_failure()` and `@with_timeout(TIMEOUTS['command']*2)`)
and `RouterConnection._execute_ssh_commands`.

The device and transport are abstracted per attempt: `connFail` models an
exception raised while acquiring/creating the pooled connection,
`promptFail` an exception from `_wait_for_prompt`, `device c` the outcome
of sending command `c` on the interactive shell (`CmdOutcome.raise` = a
transport exception), and `timedOut` whether the whole attempt exceeds
the 24 s wall-clock budget of the `with_timeout` wrapper (which then
raises `TimeoutError`). The body of `execute_commands` catches every
exception of the pool/transport and returns the single-element
`["Error: <msg>"]` list, so only the timeout wrapper can make an attempt
raise. -/

/-- Result of sending one command on the shell. -/
inductive CmdOutcome where
  | ok (out : String)
  | raise (msg : String)
deriving Repr, DecidableEq

/-- Per-attempt behaviour of the pool, transport and wall clock. -/
structure AttemptEnv where
  connFail : Option String
  promptFail : Option String
  device : String → CmdOutcome
  timedOut : Bool

/-- The `TimeoutError` message of the `with_timeout` wrapper around
`execute_commands` (`TIMEOUTS['command'] * 2 = 24`). -/
def with_timeout_msg : String := "execute_commands excedeu timeout de 24s"

/-- Source translation of `_execute_ssh_commands`: send the batch
sequentially, collecting one output per command; a transport exception
aborts the remaining commands and propagates. Returns the trace of
commands actually sent and the outcome. -/
def execute_ssh_commands (device : String → CmdOutcome) :
    List String → List String × Except String (List String)
  | [] => ([], Except.ok [])
  | c :: rest =>
    match device c with
    | CmdOutcome.ok out =>
      (c :: (execute_ssh_commands device rest).1,
        (execute_ssh_commands device rest).2.map (fun outs => out :: outs))
    | CmdOutcome.raise m => ([c], Except.error m)

/-- Source translation of the body of `execute_commands`: empty batches
return `[]`; otherwise optimize the commands, acquire a connection and
run the batch, catching every exception as `["Error: <msg>"]`.  Returns
(commands sent, result list). -/
def execute_commands_body (env : AttemptEnv) (cmds : List String) :
    List String × List String :=
  if cmds.isEmpty then ([], [])
  else
    match env.connFail with
    | some m => ([], ["Error: " ++ m])
    | none =>
      match env.promptFail with
      | some m => ([], ["Error: " ++ m])
      | none =>
        match execute_ssh_commands env.device (optimize_commands cmds) with
        | (tr, Except.ok outs) => (tr, outs)
        | (tr, Except.error m) => (tr, ["Error: " ++ m])

/-- One attempt as seen by the retry wrapper: the `with_timeout`
decorator raises `TimeoutError` when the wall clock expires, otherwise
the caught-everything body returns normally. -/
def execute_commands_attempt (env : AttemptEnv) (cmds : List String) :
    List String × Except String (List String) :=
  ((execute_commands_body env cmds).1,
    if env.timedOut then Except.error with_timeout_msg
    else Except.ok (execute_commands_body env cmds).2)

/-- The full decorated `execute_commands`:
`retry_on_failure()(with_timeout(24)(execute_commands))` with the default
3 attempts and 1.5 s base delay. -/
def execute_commands_full (envs : Nat → AttemptEnv) (cmds : List String) :
    RetryResult (List String) :=
  retry_on_failure 0 0 (fun k => (execute_commands_attempt (envs k) cmds).2)

/-- All commands sent on the session across every attempt made. -/
def execute_commands_trace (envs : Nat → AttemptEnv) (cmds : List String) :
    List String :=
  ((List.range (execute_commands_full envs cmds).calls).map
    (fun k => (execute_commands_attempt (envs k) cmds).1)).join

lemma execute_ssh_commands_ok_length (device : String → CmdOutcome)
    (l : List String) (outs : List String)
    (h : (execute_ssh_commands device l).2 = Except.ok outs) :
    outs.length = l.length := by
  induction l generalizing outs with
  | nil =>
    simp only [execute_ssh_commands] at h
    cases h
    rfl
  | cons c rest ih =>
    cases hd : device c with
    | ok out =>
      simp only [execute_ssh_commands, hd] at h
      cases hr : (execute_ssh_commands device rest).2 with
      | ok outs2 =>
        rw [hr] at h
        simp only [Except.map] at h
        cases h
        simp [ih outs2 hr]
      | error m =>
        rw [hr] at h
        simp only [Except.map] at h
        exact Except.noConfusion h
    | raise m =>
      simp only [execute_ssh_commands, hd] at h
      exact Except.noConfusion h

/-- The 3-command batch of the C2 scenario. -/
def c2Batch : List String := ["display alpha", "display beta", "display gamma"]

/-- Device behaviour for C2: command 2 (after optimization) raises a
transport exception, every other command succeeds. -/
def c2Env : AttemptEnv :=
  { connFail := none
    promptFail := none
    device := fun c =>
      if c = "display beta | no-more" then CmdOutcome.raise "boom"
      else CmdOutcome.ok ("output of " ++ c)
    timedOut := false }

/-- Identical behaviour on every attempt. -/
def c2Envs : Nat → AttemptEnv := fun _ => c2Env

/-- **C2 counterexample.** With command 2 of the 3-command batch raising
a transport exception, the commands after it are indeed not executed and
the caller receives the single-element error result — but the retry
wrapper does NOT re-attempt the batch: `execute_commands` catches the
exception internally and returns `["Error: boom"]` as a normal value, so
the wrapped function is invoked exactly once and command 1 is sent
exactly once, refuting the claim's "the executor's retry wrapper
re-attempts the entire batch from command 1". -/
theorem batch_retry_counterexample :
    (execute_commands_full c2Envs c2Batch).result = Except.ok ["Error: boom"]
    ∧ (execute_commands_full c2Envs c2Batch).calls = 1
    ∧ execute_commands_trace c2Envs c2Batch
        = ["display alpha | no-more", "display beta | no-more"]
    ∧ ¬(2 ≤ (execute_commands_trace c2Envs c2Batch).count
          "display alpha | no-more")
    ∧ ¬(2 ≤ (execute_commands_full c2Envs c2Batch).calls) := by
  refine ⟨rfl, rfl, by decide, by decide, by decide⟩

/-- **C2 (amended).** Batch abort without retry: if command 2 of a
3-command batch raises a transport exception on a healthy session (no
connection or prompt failure, no wall-clock timeout), then command 3 is
never sent (the trace is exactly the first two optimized commands), the
caller receives the single-element `["Error: <msg>"]` result rather than
a partial list — but the retry wrapper performs no re-attempt: the
exception is converted to a sentinel return value inside
`execute_commands` before the retry decorator can observe it, so exactly
one attempt is made. -/
theorem batch_abort_no_retry (envs : Nat → AttemptEnv)
    (c1 c2 c3 d1 d2 d3 o1 m : String)
    (hopt : optimize_commands [c1, c2, c3] = [d1, d2, d3])
    (hconn : (envs 0).connFail = none)
    (hprompt : (envs 0).promptFail = none)
    (hto : (envs 0).timedOut = false)
    (h1 : (envs 0).device d1 = CmdOutcome.ok o1)
    (h2 : (envs 0).device d2 = CmdOutcome.raise m) :
    (execute_commands_full envs [c1, c2, c3]).result
        = Except.ok ["Error: " ++ m]
    ∧ (execute_commands_full envs [c1, c2, c3]).calls = 1
    ∧ execute_commands_trace envs [c1, c2, c3] = [d1, d2] := by
  have hssh : execute_ssh_commands (envs 0).device [d1, d2, d3]
      = ([d1, d2], Except.error m) := by
    simp only [execute_ssh_commands, h1, h2]
    rfl
  have hbody : execute_commands_body (envs 0) [c1, c2, c3]
      = ([d1, d2], ["Error: " ++ m]) := by
    unfold execute_commands_body
    simp only [List.isEmpty_cons, Bool.false_eq_true, if_false, hconn,
      hprompt, hopt, hssh]
  have hatt : execute_commands_attempt (envs 0) [c1, c2, c3]
      = ([d1, d2], Except.ok ["Error: " ++ m]) := by
    unfold execute_commands_attempt
    rw [hbody, hto]
    rfl
  have hatt2 : (fun k => (execute_commands_attempt (envs k) [c1, c2, c3]).2) 0
      = Except.ok ["Error: " ++ m] := by
    show (execute_commands_attempt (envs 0) [c1, c2, c3]).2 = _
    rw [hatt]
  have hfull : execute_commands_full envs [c1, c2, c3]
      = ⟨1, [], Except.ok ["Error: " ++ m]⟩ := by
    unfold execute_commands_full retry_on_failure
    show retryGo _ _ 0 3 = _
    simp only [retryGo, hatt, hatt2]
  refine ⟨by rw [hfull], by rw [hfull], ?_⟩
  unfold execute_commands_trace
  rw [hfull]
  show ((List.range 1).map _).join = _
  simp [List.range_succ, hatt]

/-- Witness for the amended C2: the concrete scenario environment
satisfies the hypotheses and shows trace `[cmd1, cmd2]`, result
`["Error: boom"]`, one attempt. -/
theorem batch_abort_no_retry_witness :
    (execute_commands_full c2Envs c2Batch).result = Except.ok ["Error: boom"]
    ∧ (execute_commands_full c2Envs c2Batch).calls = 1
    ∧ execute_commands_trace c2Envs c2Batch
        = ["display alpha | no-more", "display beta | no-more"] := by
  have h := batch_abort_no_retry c2Envs "display alpha" "display beta"
    "display gamma" "display alpha | no-more" "display beta | no-more"
    "display gamma | no-more" "output of display alpha | no-more" "boom"
    (by decide) rfl rfl rfl (by decide) (by decide)
  exact h

/-- Environment for C10: a healthy device but the whole batch exceeds the
24 s wall-clock budget on every attempt. -/
def c10Env : AttemptEnv :=
  { connFail := none
    promptFail := none
    device := fun c => CmdOutcome.ok ("output of " ++ c)
    timedOut := true }

/-- The wall clock expires on every retry attempt. -/
def c10Envs : Nat → AttemptEnv := fun _ => c10Env

/-- **C10 counterexample.** `execute_commands` is not exception-free:
when the whole batch exceeds the `with_timeout(24)` budget, the wrapper
raises `TimeoutError`; the retry decorator retries and finally re-raises
it, so the caller receives an exception (`Except.error`), not a list of
strings — refuting "never propagates an exception to its caller" and
"any internal failure ... is caught and returned as ['Error: <message>']". -/
theorem execute_commands_raises_counterexample :
    (execute_commands_full c10Envs ["display version"]).result
        = Except.error with_timeout_msg
    ∧ (execute_commands_full c10Envs ["display version"]).calls = 3
    ∧ ∀ outs : List String,
        (execute_commands_full c10Envs ["display version"]).result
          ≠ Except.ok outs := by
  have hres : (execute_commands_full c10Envs ["display version"]).result
      = Except.error with_timeout_msg := rfl
  refine ⟨hres, rfl, fun outs h => ?_⟩
  rw [hres] at h
  exact Except.noConfusion h

/-- **C10 (amended).** When the `with_timeout` wrapper does not fire (the
batch completes within the 24 s wall-clock budget), no exception reaches
the caller: the first attempt returns normally, the retry wrapper makes
exactly one call, and the result is always a list of strings — `[]` for
an empty batch, the single-element `["Error: <msg>"]` list when
connection creation, the prompt wait or a transport command failed, and
otherwise exactly one output per optimized command. Failure is signalled
only by the `"Error:"` string prefix. -/
theorem execute_commands_no_raise (envs : Nat → AttemptEnv)
    (cmds : List String) (hto : (envs 0).timedOut = false) :
    (execute_commands_full envs cmds).result
        = Except.ok (execute_commands_body (envs 0) cmds).2
    ∧ (execute_commands_full envs cmds).calls = 1
    ∧ ((execute_commands_body (envs 0) cmds).2 = []
        ∨ (∃ m, (execute_commands_body (envs 0) cmds).2 = ["Error: " ++ m])
        ∨ (execute_commands_body (envs 0) cmds).2.length
            = (optimize_commands cmds).length) := by
  have hatt : (execute_commands_attempt (envs 0) cmds).2
      = Except.ok (execute_commands_body (envs 0) cmds).2 := by
    unfold execute_commands_attempt
    rw [hto]
    rfl
  have hatt2 : (fun k => (execute_commands_attempt (envs k) cmds).2) 0
      = Except.ok (execute_commands_body (envs 0) cmds).2 := by
    show (execute_commands_attempt (envs 0) cmds).2 = _
    rw [hatt]
  have hfull : execute_commands_full envs cmds
      = ⟨1, [], Except.ok (execute_commands_body (envs 0) cmds).2⟩ := by
    unfold execute_commands_full retry_on_failure
    show retryGo _ _ 0 3 = _
    simp only [retryGo, hatt2]
  refine ⟨by rw [hfull], by rw [hfull], ?_⟩
  by_cases hemp : cmds.isEmpty = true
  · left
    unfold execute_commands_body
    rw [if_pos hemp]
  · have hemp' : cmds.isEmpty = false := by simpa using hemp
    cases hc : (envs 0).connFail with
    | some m =>
      refine Or.inr (Or.inl ⟨m, ?_⟩)
      unfold execute_commands_body
      rw [if_neg (by simp [hemp'])]
      simp only [hc]
    | none =>
      cases hp : (envs 0).promptFail with
      | some m =>
        refine Or.inr (Or.inl ⟨m, ?_⟩)
        unfold execute_commands_body
        rw [if_neg (by simp [hemp'])]
        simp only [hc, hp]
      | none =>
        cases hssh : execute_ssh_commands (envs 0).device
            (optimize_commands cmds) with
        | mk tr r =>
          cases r with
          | ok outs =>
            refine Or.inr (Or.inr ?_)
            have hb : (execute_commands_body (envs 0) cmds).2 = outs := by
              unfold execute_commands_body
              rw [if_neg (by simp [hemp'])]
              simp only [hc, hp, hssh]
            rw [hb]
            exact execute_ssh_commands_ok_length (envs 0).device
              (optimize_commands cmds) outs (by rw [hssh])
          | error m =>
            refine Or.inr (Or.inl ⟨m, ?_⟩)
            unfold execute_commands_body
            rw [if_neg (by simp [hemp'])]
            simp only [hc, hp, hssh]

/-- A healthy attempt environment used by the C10 witness. -/
def healthyEnv : AttemptEnv :=
  { connFail := none
    promptFail := none
    device := fun c => CmdOutcome.ok ("out " ++ c)
    timedOut := false }

/-- Witness for the amended C10: a healthy two-command batch within the
time budget returns index-aligned outputs, no exception. -/
theorem execute_commands_no_raise_witness :
    (execute_commands_full (fun _ => healthyEnv)
      ["display version", "display device"]).result
      = Except.ok ["out display version | no-more",
          "out display device | no-more"] := by
  have h := execute_commands_no_raise (fun _ => healthyEnv)
    ["display version", "display device"] rfl
  rw [h.1]
  rfl
